import Mathlib

/-!
# goup: restart coordination, verified against `goup.go`

A shallow embedding of `src/goup.go` (package `main` of DATA-DOG/goup) and the
theorems that settle the specification's claims about it.

Conventions of the embedding.

* Go `string` values are Lean `String`s.  `filepath.Ext` walks the path from its
  last position backwards; the two characters it looks for (`'.'` and the path
  separator) are ASCII, so walking characters and walking bytes meet the same
  positions.
* `fsnotify.Op` is a `uint32` bit mask; it is a `Nat` here and the only
  operation used on it is the bitwise and of `v.Op&op == op`, which cannot
  overflow.
* What the operating system decides (does `go install` succeed, does a signal
  get delivered, does a process start, which pid does it get) is an explicit
  argument of the embedded function, an `Outcome`.
* What a function does to the outside world is returned as a list of `Effect`s
  in program order.
* A Go `panic` is the `Except.error` branch of the result.
-/

namespace Goup

/-! ## fsnotify events and the event filter (`goup.go` lines 24-25, 209-232) -/

/-- An `fsnotify.Op`: a set of file operations, one bit each. -/
abbrev Op := Nat

/-- The constant `fsnotify.Create` (`1 << 0`). -/
def Create : Op := 1
/-- The constant `fsnotify.Write` (`1 << 1`). -/
def Write : Op := 2
/-- The constant `fsnotify.Remove` (`1 << 2`). -/
def Remove : Op := 4
/-- The constant `fsnotify.Rename` (`1 << 3`). -/
def Rename : Op := 8
/-- The constant `fsnotify.Chmod` (`1 << 4`). -/
def Chmod : Op := 16

/-- The type `validate`, that is `fsnotify.Event`: a path and the operations
that happened to it. -/
structure validate where
  Name : String
  Op : Op
  deriving DecidableEq, Repr

/-- The package variable `watchOps` (line 24). -/
def watchOps : List Op := [Write, Create, Remove]

/-- The package variable `watchExt` (line 25). -/
def watchExt : List String := [".go"]

/-- The function `os.IsPathSeparator` on a Unix system. -/
def IsPathSeparator (c : Char) : Bool := c == '/'

/-- The loop of `filepath.Ext`.  The second argument is `i + 1` for the loop
variable `i`, so that `0` stands for `i < 0`, where the loop ends. -/
def extLoop (path : List Char) : Nat → List Char
  | 0 => []
  | i + 1 =>
    match path.get? i with
    | none => []
    | some c =>
      if IsPathSeparator c then []
      else if c = '.' then path.drop i
      else extLoop path i

/-- The function `filepath.Ext`: scan from `len(path) - 1` downwards until a
path separator; at the first `'.'` met return `path[i:]`, otherwise `""`. -/
def Ext (path : String) : String :=
  String.mk (extLoop path.toList path.toList.length)

/-- The method `validate.ops` (lines 215-222): some `op` of `watchOps` has
`v.Op&op == op`. -/
def validate.ops (v : validate) : Bool :=
  watchOps.any fun op => v.Op &&& op == op

/-- The method `validate.ext` (lines 224-232): the extension of `v.Name` equals
some entry of `watchExt`. -/
def validate.ext (v : validate) : Bool :=
  let ext := Ext v.Name
  watchExt.any fun e => ext == e

/-- The method `validate.valid` (lines 211-213). -/
def validate.valid (v : validate) : Bool :=
  v.ops && v.ext

/-! ## The extension of a path, in the specification's words -/

/-- Following the specification's words: the final path element, what comes
after the last path separator. -/
def finalElement (path : List Char) : List Char :=
  (path.reverse.takeWhile fun c => !IsPathSeparator c).reverse

/-- Following the specification's words: the suffix starting at the last `'.'`
of the element, empty when the element has none. -/
def suffixFromLastDot (elem : List Char) : List Char :=
  if '.' ∈ elem then '.' :: (elem.reverse.takeWhile fun c => c != '.').reverse else []

/-- Following the specification's words: the extension of a path is the suffix
starting at the last `'.'` of its final path element, empty when there is
none. -/
def extension (path : String) : String :=
  String.mk (suffixFromLastDot (finalElement path.toList))


/-! ## The termination signal (`goup.go` lines 27, 98-107) -/

deriving instance DecidableEq for Except

/-- A `syscall.Signal`, as far as `goup` uses them. -/
inductive Signal
  | SIGINT
  | SIGTERM
  deriving DecidableEq, Repr

/-- The function `os.Getenv`: the value of the variable, `""` when it is
unset. -/
def Getenv (value : Option String) : String :=
  value.getD ""

/-- The function `getTermSignal` (lines 99-107), reading the package variable
`termSignal`, which is passed as the argument.  The `panic` is the error
branch, carrying the panic message. -/
def getTermSignal (termSignal : String) : Except String Signal :=
  if termSignal = "INT" then
    .ok Signal.SIGINT
  else if termSignal = "TERM" ∨ termSignal = "" then
    .ok Signal.SIGTERM
  else
    .error ("invalid GOUP_TERM_SIGNAL value: " ++ termSignal)

/-! ## Byte slices and readers (`make`, `copy`, `bytes.NewReader`) -/

/-- A byte of a Go `[]byte`. -/
abbrev Byte := Nat

/-- The backing arrays of the byte slices the program holds, by address. -/
abbrev Heap := List (List Byte)

/-- A `[]byte` value: `none` is the nil slice, `some a` the slice over the whole
backing array at address `a`. -/
abbrev Slice := Option Nat

/-- The bytes a slice holds. -/
def Heap.bytes (h : Heap) : Slice → List Byte
  | none => []
  | some a => h.getD a []

/-- The builtin `len` on a byte slice. -/
def Heap.len (h : Heap) (s : Slice) : Nat :=
  (h.bytes s).length

/-- The builtin `make([]byte, n)`: a new zeroed backing array at the next free
address. -/
def Heap.make (h : Heap) (n : Nat) : Heap × Slice :=
  (h ++ [List.replicate n 0], some h.length)

/-- What `copy(dst, src)` leaves in `dst`: the first `min(len(dst), len(src))`
bytes come from `src`, the rest of `dst` stays. -/
def copyBytes (dst src : List Byte) : List Byte :=
  src.take dst.length ++ dst.drop src.length

/-- The builtin `copy(dst, src)`: it writes the backing array of `dst` only. -/
def Heap.copy (h : Heap) (dst src : Slice) : Heap :=
  match dst with
  | none => h
  | some d => h.set d (copyBytes (h.bytes dst) (h.bytes src))

/-- An `io.Reader` handed to a child as its standard input: `os.Stdin` itself,
or a `bytes.Reader` with its slice `s` and read offset `i`; `nil` is the nil
interface, what the field `Stdin` of an `exec.Cmd` holds until it is assigned. -/
inductive Reader
  | osStdin
  | bytesReader (s : Slice) (i : Nat)
  | nil
  deriving DecidableEq, Repr

/-- The function `bytes.NewReader`: a reader over `buf` at offset 0. -/
def NewReader (buf : Slice) : Reader :=
  Reader.bytesReader buf 0

/-- The bytes a `bytes.Reader` still has to deliver: its slice from the read
offset on.  For `os.Stdin` the program holds no bytes: `none`; so for the nil
reader, with which a child reads the null device. -/
def Reader.unread (h : Heap) : Reader → Option (List Byte)
  | Reader.osStdin => none
  | Reader.bytesReader s i => some ((h.bytes s).drop i)
  | Reader.nil => none

/-! ## The project and its child process (`goup.go` lines 29-39) -/

/-- An `exec.Cmd`, as far as `goup` uses it.  `Process` is the `*os.Process`,
given by its pid: `none` is the nil pointer (the command was never started, or
`Start` failed). -/
structure Cmd where
  Path : String
  Args : List String
  Stdin : Reader
  Process : Option Nat
  deriving DecidableEq, Repr

/-- The function `exec.Command(name, arg...)`, with the standard input that
`restart` assigns right after (line 151). -/
def Command (name : String) (arg : List String) (stdin : Reader) : Cmd :=
  { Path := name, Args := name :: arg, Stdin := stdin, Process := none }

/-- The struct `project` (lines 29-39).  `cmd` is a pointer: `none` is nil. -/
structure project where
  Name : String
  Deps : List String
  Target : String
  Dir : String
  cmd : Option Cmd
  restarting : Bool
  watched : List String
  stdin : Slice
  deriving DecidableEq, Repr

/-- A line written to `logger`. -/
inductive LogLine
  | usingTerminationSignal (termSignal : String)
  | event (e : validate)
  | watchError (err : String)
  | terminatingProcess (pid : Nat)
  | failedToTerminate (pid : Nat)
  | restartingApplication
  | recompilingPackage
  | failedToRunGoInstall
  | failedToRunCommand
  | startedOnPID (pid : Nat)
  deriving DecidableEq, Repr

/-- What the program does to the world, and the writes to `restarting`, in
program order. -/
inductive Effect
  /-- A `logger.Println` or `logger.Printf`. -/
  | log (line : LogLine)
  /-- The call `exec.Command(name, arg...).Run()`, and whether it returned nil. -/
  | run (name : String) (arg : List String) (ok : Bool)
  /-- The call `Process.Signal(sig)` on the process `pid`, and whether it
  returned nil. -/
  | signal (pid : Nat) (sig : Signal) (ok : Bool)
  /-- The call `Start()` on the command, and the pid of the started process, or
  `none` when `Start` returned an error. -/
  | start (cmd : Cmd) (pid : Option Nat)
  /-- The call `Wait()` on the started command. -/
  | wait (pid : Nat)
  /-- The assignment `restarting = b`. -/
  | setRestarting (b : Bool)
  /-- The statement `go prj.restart()`. -/
  | goRestart
  /-- The call `read()`. -/
  | read
  /-- The call `signal.Notify(c, os.Interrupt, syscall.SIGTERM)` and the
  goroutine that waits on `c` (lines 52-58). -/
  | signalNotify
  /-- The call `fsnotify.NewWatcher()`, and whether it returned a watcher. -/
  | newWatcher (ok : Bool)
  /-- The dispatch goroutine is started (line 67). -/
  | goDispatch
  /-- The call `watcher.Add(dir)`, and whether it returned nil. -/
  | watcherAdd (dir : String) (ok : Bool)
  /-- The call `os.Exit(code)`. -/
  | exit (code : Nat)
  deriving DecidableEq, Repr

/-- What the operating system answers during one call of `restart`. -/
structure Outcome where
  /-- The build `go install` succeeded. -/
  build : Bool
  /-- The termination signal was delivered. -/
  signal : Bool
  /-- The pid of the started process; `none` when `Start` fails. -/
  start : Option Nat
  deriving DecidableEq, Repr

/-- The process-wide values a cycle reads: the package variable `termSignal`
and `os.Args`. -/
structure Config where
  termSignal : String
  Args : List String
  deriving DecidableEq, Repr

/-- The state a call leaves behind: the effects it had, the heap, the project,
and the panic message when the call panicked. -/
structure Run where
  trace : List Effect
  heap : Heap
  prj : project
  panic : Option String
  deriving DecidableEq, Repr

/-! ## `terminate` and `restart` (`goup.go` lines 109-163) -/

/-- The method `project.terminate` (lines 109-117): the effects it has and the
panic message when `getTermSignal` panics.  `delivered` tells whether
`Process.Signal` returns nil. -/
def project.terminate (termSignal : String) (delivered : Bool) (p : project) :
    List Effect × Option String :=
  match p.cmd with
  | none => ([], none)
  | some cmd =>
    match cmd.Process with
    | none => ([], none)
    | some pid =>
      match getTermSignal termSignal with
      | .error msg => ([.log (.terminatingProcess pid)], some msg)
      | .ok sig =>
        if delivered then
          ([.log (.terminatingProcess pid), .signal pid sig true], none)
        else
          ([.log (.terminatingProcess pid), .signal pid sig false,
            .log (.failedToTerminate pid)], none)

/-- Lines 142-147 of `restart`: the standard input of the new child. -/
def project.childStdin (h : Heap) (p : project) : Heap × Reader :=
  if h.len p.stdin > 0 then
    let (h1, buf) := h.make (h.len p.stdin)
    let h2 := h1.copy buf p.stdin
    (h2, NewReader buf)
  else
    (h, Reader.osStdin)

/-- The method `project.restart` (lines 119-163), run to its end. -/
def project.restart (cfg : Config) (o : Outcome) (h : Heap) (p : project) : Run :=
  let t0 : List Effect :=
    [.log (if p.Name = "main" then .restartingApplication else .recompilingPackage)]
  let t1 := t0 ++ [.run "go" ["install"] o.build]
  if o.build = false then
    { trace := t1 ++ [.log .failedToRunGoInstall, .setRestarting false]
      heap := h, prj := { p with restarting := false }, panic := none }
  else if p.Name ≠ "main" then
    { trace := t1 ++ [.setRestarting false]
      heap := h, prj := { p with restarting := false }, panic := none }
  else
    match p.terminate cfg.termSignal o.signal with
    | (t2, some msg) => { trace := t1 ++ t2, heap := h, prj := p, panic := some msg }
    | (t2, none) =>
      let (h', stdin) := p.childStdin h
      let cmd := Command p.Target (cfg.Args.drop 1) stdin
      match o.start with
      | none =>
        { trace := t1 ++ t2 ++
            [.start cmd none, .log .failedToRunCommand, .setRestarting false]
          heap := h'
          prj := { p with cmd := some cmd, restarting := false }
          panic := none }
      | some pid =>
        { trace := t1 ++ t2 ++
            [.start cmd (some pid), .setRestarting false, .log (.startedOnPID pid),
             .wait pid]
          heap := h'
          prj := { p with cmd := some { cmd with Process := some pid },
                          restarting := false }
          panic := none }

/-- Successive calls of `restart`, one per outcome, each on the state the one
before left; a panic ends the sequence. -/
def restarts (cfg : Config) : List Outcome → Heap → project → Run
  | [], h, p => { trace := [], heap := h, prj := p, panic := none }
  | o :: os, h, p =>
    let r := p.restart cfg o h
    match r.panic with
    | some msg => { r with panic := some msg }
    | none =>
      let r' := restarts cfg os r.heap r.prj
      { r' with trace := r.trace ++ r'.trace }

/-- The goroutine of lines 54-58, once a signal arrives on `c`:
`prj.terminate()` and `os.Exit(0)`. -/
def signalHandler (termSignal : String) (delivered : Bool) (p : project) :
    List Effect × Option String :=
  match p.terminate termSignal delivered with
  | (t, some msg) => (t, some msg)
  | (t, none) => (t ++ [.exit 0], none)


/-! ## `read` (`goup.go` lines 165-207) -/

/-- The fields of `project` that `json.Unmarshal` fills from the output of
`go list -json -e`. -/
structure Listing where
  Name : String
  Deps : List String
  Target : String
  Dir : String
  deriving DecidableEq, Repr

/-- What `build.Import` returns for a dependency, as far as `read` looks. -/
structure Package where
  Goroot : Bool
  Dir : String
  deriving DecidableEq, Repr

/-- What the outside world answers during `read`. -/
structure ReadInput where
  /-- The output of `go list -json -e`, unmarshalled; or the error of either. -/
  list : Except String Listing
  /-- The call `build.Import(dep, prj.Dir, 0)`; `none` when it returns an error. -/
  imp : String → Option Package
  /-- The call `os.Stdin.Stat()`: whether the mode has `os.ModeCharDevice`; or
  the error. -/
  stat : Except String Bool
  /-- The call `ioutil.ReadAll(os.Stdin)`. -/
  input : Except String (List Byte)

/-- The loop of lines 177-192: the directories of the dependencies that are
not vendored, that import, and that are not in GOROOT. -/
def watchedDirs (imp : String → Option Package) : List String → List String
  | [] => []
  | dep :: deps =>
    if "/vendor/".toList <:+: dep.toList then watchedDirs imp deps
    else
      match imp dep with
      | none => watchedDirs imp deps
      | some pkg =>
        if pkg.Goroot then watchedDirs imp deps
        else pkg.Dir :: watchedDirs imp deps

/-- The function `read` (lines 165-207).  The slice that `ioutil.ReadAll`
returns is a new backing array on the heap. -/
def read (i : ReadInput) (h : Heap) : Except String (Heap × project) :=
  match i.list with
  | .error err => .error err
  | .ok l =>
    let prj : project :=
      { Name := l.Name, Deps := l.Deps, Target := l.Target, Dir := l.Dir
        cmd := none, restarting := false
        watched := watchedDirs i.imp l.Deps, stdin := none }
    match i.stat with
    | .error err => .error err
    | .ok charDevice =>
      if charDevice = false then
        match i.input with
        | .error err => .error err
        | .ok data => .ok (h ++ [data], { prj with stdin := some h.length })
      else
        .ok (h, prj)

/-! ## The dispatch loop (`goup.go` lines 67-81) -/

/-- What the `select` of the dispatch loop receives: an event from
`watcher.Events` or an error from `watcher.Errors`. -/
inductive Msg
  | event (e : validate)
  | error (err : String)
  deriving DecidableEq, Repr

/-- One turn of the dispatch loop (lines 69-79): the project afterwards and the
effects of the turn. -/
def dispatch (p : project) : Msg → project × List Effect
  | .event e =>
    if p.restarting || !e.valid then (p, [])
    else
      ({ p with restarting := true },
        [.setRestarting true, .log (.event e), .goRestart])
  | .error err => (p, [.log (.watchError err)])

/-- The dispatch loop over the messages it receives, none of its cycles
finishing meanwhile. -/
def dispatchAll (p : project) : List Msg → project × List Effect
  | [] => (p, [])
  | m :: ms =>
    let (p1, t1) := dispatch p m
    let (p2, t2) := dispatchAll p1 ms
    (p2, t1 ++ t2)

/-- The number of `go prj.restart()` statements in a trace: the cycles
started. -/
def cyclesStarted (t : List Effect) : Nat :=
  t.count Effect.goRestart

/-! ## `main` (`goup.go` lines 41-96) -/

/-- How `main` ends. -/
inductive Exit
  /-- A `panic(v)` that nothing recovers. -/
  | panic (v : String)
  /-- A `logger.Fatalf`: the message is logged and the program exits with 1. -/
  | fatal (msg : String)
  /-- The receive `<-done` of line 95, which blocks for good. -/
  | blocked
  deriving DecidableEq, Repr

/-- What the outside world answers during the startup of `main`. -/
structure Startup where
  /-- The environment variable `GOUP_TERM_SIGNAL`; `none` when unset. -/
  env : Option String
  /-- What `read()` meets. -/
  input : ReadInput
  /-- The call `fsnotify.NewWatcher()` returns a watcher. -/
  newWatcher : Bool
  /-- The call `watcher.Add(dir)` returns nil. -/
  add : String → Bool

/-- The loop of lines 83-87: the effects, and the directory whose registration
failed, if one did. -/
def registerAll (add : String → Bool) : List String → List Effect × Option String
  | [] => ([], none)
  | dir :: dirs =>
    if add dir then
      let (t, failed) := registerAll add dirs
      (Effect.watcherAdd dir true :: t, failed)
    else
      ([Effect.watcherAdd dir false], some dir)

/-- Lines 43-95 of `main`: everything after its first statement. -/
def mainFrom43 (s : Startup) : List Effect × Exit :=
  match read s.input [] with
  | .error err => ([.read], .fatal ("failed import: " ++ err))
  | .ok (_, prj) =>
    match getTermSignal (Getenv s.env) with
    | .error msg => ([.read], .panic msg)
    | .ok _ =>
      let t : List Effect :=
        [.read, .log (.usingTerminationSignal (Getenv s.env)), .signalNotify,
         .newWatcher s.newWatcher]
      if s.newWatcher = false then
        (t, .fatal "failed to create fsnotify watcher")
      else
        match registerAll s.add prj.watched with
        | (tr, some dir) =>
          (t ++ [.goDispatch] ++ tr, .fatal ("failed to register: " ++ dir))
        | (tr, none) =>
          if s.add prj.Dir = false then
            (t ++ [.goDispatch] ++ tr ++ [.watcherAdd prj.Dir false],
              .fatal ("failed to register: " ++ prj.Dir))
          else
            (t ++ [.goDispatch] ++ tr ++
              [.watcherAdd prj.Dir true, .setRestarting true, .goRestart], .blocked)

/-- The builtin `panic(v)` as a statement: it has no effect of its own and ends
the function with the panic. -/
def goPanic (v : String) : List Effect × Option Exit :=
  ([], some (Exit.panic v))

/-- A statement followed by the rest of the function: the rest runs only when
the statement did not end the function. -/
def andThen (first : List Effect × Option Exit) (rest : List Effect × Exit) :
    List Effect × Exit :=
  match first with
  | (t, some e) => (t, e)
  | (t, none) => (t ++ rest.1, rest.2)

/-- The function `main` (lines 41-96): line 42,
`panic(os.Getenv("GOUP_TERM_SIGNAL"))`, and then lines 43-95. -/
def main (s : Startup) : List Effect × Exit :=
  andThen (goPanic (Getenv s.env)) (mainFrom43 s)

/-! ## The program, goroutine by goroutine and line by line

The goroutines share the `project` behind the pointer `prj` and nothing else
that they write.  Each step below is one statement of `goup.go`, which reads
the shared fields anew, as the code does: `p.cmd` is read again at each of the
lines 111-114, 150-153, 160 and 161, and may by then be the command another
cycle assigned at its line 149.  The variables of a goroutine (`buf`, `stdin`,
the received `event`) travel with its position. -/

/-- The panic of a nil pointer dereference. -/
def nilDereference : String :=
  "runtime error: invalid memory address or nil pointer dereference"

/-- Where a call of `terminate` stands: before line 111, 112, 113 or 114, or
at its end. -/
inductive TPc
  | l111
  | l112
  | l113
  | l114
  | done
  deriving DecidableEq, Repr

/-- One statement of `terminate` (lines 111-115): where it stands afterwards,
its effects, and the panic message if it panics.  Lines 112-114 read
`p.cmd.Process` again; on a nil `Process` they panic. -/
def project.terminateStep (termSignal : String) (delivered : Bool) (p : project) :
    TPc → TPc × List Effect × Option String
  | .l111 =>
    match p.cmd with
    | none => (.done, [], none)
    | some cmd =>
      match cmd.Process with
      | none => (.done, [], none)
      | some _ => (.l112, [], none)
  | .l112 =>
    match p.cmd with
    | none => (.l112, [], some nilDereference)
    | some cmd =>
      match cmd.Process with
      | none => (.l112, [], some nilDereference)
      | some pid => (.l113, [.log (.terminatingProcess pid)], none)
  | .l113 =>
    match p.cmd with
    | none => (.l113, [], some nilDereference)
    | some cmd =>
      match getTermSignal termSignal with
      | .error msg => (.l113, [], some msg)
      | .ok sig =>
        match cmd.Process with
        | none => (.l113, [], some nilDereference)
        | some pid =>
          if delivered then (.done, [.signal pid sig true], none)
          else (.l114, [.signal pid sig false], none)
  | .l114 =>
    match p.cmd with
    | none => (.l114, [], some nilDereference)
    | some cmd =>
      match cmd.Process with
      | none => (.l114, [], some nilDereference)
      | some pid => (.done, [.log (.failedToTerminate pid)], none)
  | .done => (.done, [], none)

/-- Where a goroutine running `restart` stands: the line it is about to run,
with its local variables. -/
inductive Pc
  /-- Started by `go prj.restart()`, not yet running. -/
  | spawned
  /-- Before the build (lines 126-129). -/
  | l126
  /-- Before the log line of a failed build (line 130). -/
  | l130
  /-- Before `p.restarting = false` of a failed build (line 131). -/
  | l131
  /-- Before the test `p.Name != "main"` (line 135). -/
  | l135
  /-- Before `p.restarting = false` of a library (line 136). -/
  | l136
  /-- Inside `p.terminate()` (line 140). -/
  | terminate (t : TPc)
  /-- Before `var stdin io.Reader = os.Stdin` and the test of line 143. -/
  | l143
  /-- Before `buf := make([]byte, len(p.stdin))` (line 144). -/
  | l144
  /-- Before `copy(buf, p.stdin)` (line 145). -/
  | l145 (buf : Slice)
  /-- Before `stdin = bytes.NewReader(buf)` (line 146). -/
  | l146 (buf : Slice)
  /-- Before `p.cmd = exec.Command(...)` (line 149). -/
  | l149 (stdin : Reader)
  /-- Before `p.cmd.Stdout = os.Stdout` (line 150). -/
  | l150 (stdin : Reader)
  /-- Before `p.cmd.Stdin = stdin` (line 151). -/
  | l151 (stdin : Reader)
  /-- Before `p.cmd.Stderr = os.Stderr` (line 152). -/
  | l152
  /-- Before `p.cmd.Start()` (line 153). -/
  | l153
  /-- Before the log line of a failed start (line 154). -/
  | l154
  /-- Before `p.restarting = false` of a failed start (line 155). -/
  | l155
  /-- Before `p.restarting = false` of a successful start (line 158). -/
  | l158
  /-- Before the log line with `p.cmd.Process.Pid` (line 160). -/
  | l160
  /-- Before `p.cmd.Wait()` (line 161). -/
  | l161
  /-- In `Wait`, until the process `pid` exits. -/
  | wait (pid : Nat)
  /-- The call has returned. -/
  | returned
  /-- The goroutine panicked. -/
  | panicked
  deriving DecidableEq, Repr

/-- One statement of a goroutine running `restart` (lines 119-163) on the
shared project: where it stands afterwards and what it leaves. -/
def project.restartStep (cfg : Config) (o : Outcome) (h : Heap) (p : project) :
    Pc → Pc × Run
  | .spawned =>
    (.l126,
      { trace := [.log (if p.Name = "main" then .restartingApplication
                        else .recompilingPackage)]
        heap := h, prj := p, panic := none })
  | .l126 =>
    (if o.build = false then .l130 else .l135,
      { trace := [.run "go" ["install"] o.build], heap := h, prj := p, panic := none })
  | .l130 =>
    (.l131, { trace := [.log .failedToRunGoInstall], heap := h, prj := p, panic := none })
  | .l131 =>
    (.returned,
      { trace := [.setRestarting false], heap := h
        prj := { p with restarting := false }, panic := none })
  | .l135 =>
    (if p.Name ≠ "main" then .l136 else .terminate .l111,
      { trace := [], heap := h, prj := p, panic := none })
  | .l136 =>
    (.returned,
      { trace := [.setRestarting false], heap := h
        prj := { p with restarting := false }, panic := none })
  | .terminate t =>
    match p.terminateStep cfg.termSignal o.signal t with
    | (_, eff, some msg) =>
      (.panicked, { trace := eff, heap := h, prj := p, panic := some msg })
    | (t', eff, none) =>
      (if t' = .done then .l143 else .terminate t',
        { trace := eff, heap := h, prj := p, panic := none })
  | .l143 =>
    (if h.len p.stdin > 0 then .l144 else .l149 Reader.osStdin,
      { trace := [], heap := h, prj := p, panic := none })
  | .l144 =>
    (.l145 (h.make (h.len p.stdin)).2,
      { trace := [], heap := (h.make (h.len p.stdin)).1, prj := p, panic := none })
  | .l145 buf =>
    (.l146 buf, { trace := [], heap := h.copy buf p.stdin, prj := p, panic := none })
  | .l146 buf =>
    (.l149 (NewReader buf), { trace := [], heap := h, prj := p, panic := none })
  | .l149 stdin =>
    (.l150 stdin,
      { trace := [], heap := h
        prj := { p with cmd := some (Command p.Target (cfg.Args.drop 1) Reader.nil) }
        panic := none })
  | .l150 stdin =>
    match p.cmd with
    | none => (.panicked, { trace := [], heap := h, prj := p, panic := some nilDereference })
    | some _ => (.l151 stdin, { trace := [], heap := h, prj := p, panic := none })
  | .l151 stdin =>
    match p.cmd with
    | none => (.panicked, { trace := [], heap := h, prj := p, panic := some nilDereference })
    | some cmd =>
      (.l152,
        { trace := [], heap := h
          prj := { p with cmd := some { cmd with Stdin := stdin } }, panic := none })
  | .l152 =>
    match p.cmd with
    | none => (.panicked, { trace := [], heap := h, prj := p, panic := some nilDereference })
    | some _ => (.l153, { trace := [], heap := h, prj := p, panic := none })
  | .l153 =>
    match p.cmd with
    | none => (.panicked, { trace := [], heap := h, prj := p, panic := some nilDereference })
    | some cmd =>
      match cmd.Process with
      | some _ =>
        -- `Start` on a started command returns the error "exec: already started"
        (.l154, { trace := [.start cmd none], heap := h, prj := p, panic := none })
      | none =>
        match o.start with
        | none =>
          (.l154, { trace := [.start cmd none], heap := h, prj := p, panic := none })
        | some pid =>
          (.l158,
            { trace := [.start cmd (some pid)], heap := h
              prj := { p with cmd := some { cmd with Process := some pid } }
              panic := none })
  | .l154 =>
    (.l155, { trace := [.log .failedToRunCommand], heap := h, prj := p, panic := none })
  | .l155 =>
    (.returned,
      { trace := [.setRestarting false], heap := h
        prj := { p with restarting := false }, panic := none })
  | .l158 =>
    (.l160,
      { trace := [.setRestarting false], heap := h
        prj := { p with restarting := false }, panic := none })
  | .l160 =>
    match p.cmd with
    | none => (.panicked, { trace := [], heap := h, prj := p, panic := some nilDereference })
    | some cmd =>
      match cmd.Process with
      | none =>
        (.panicked, { trace := [], heap := h, prj := p, panic := some nilDereference })
      | some pid =>
        (.l161, { trace := [.log (.startedOnPID pid)], heap := h, prj := p, panic := none })
  | .l161 =>
    match p.cmd with
    | none => (.panicked, { trace := [], heap := h, prj := p, panic := some nilDereference })
    | some cmd =>
      match cmd.Process with
      | none =>
        -- `Wait` on a command that was not started returns an error at once
        (.returned, { trace := [], heap := h, prj := p, panic := none })
      | some pid => (.wait pid, { trace := [], heap := h, prj := p, panic := none })
  | .wait pid =>
    (.returned, { trace := [.wait pid], heap := h, prj := p, panic := none })
  | .returned => (.returned, { trace := [], heap := h, prj := p, panic := none })
  | .panicked => (.panicked, { trace := [], heap := h, prj := p, panic := none })

/-- A goroutine running `restart` alone for `n` statements: the effects add
up, and a panic ends it. -/
def runSteps (cfg : Config) (o : Outcome) : Nat → Pc → Run → Pc × Run
  | 0, pc, r => (pc, r)
  | n + 1, pc, r =>
    match r.panic with
    | some _ => (pc, r)
    | none =>
      let (pc', r') := r.prj.restartStep cfg o r.heap pc
      runSteps cfg o n pc'
        { trace := r.trace ++ r'.trace, heap := r'.heap, prj := r'.prj, panic := r'.panic }

/-- A cycle is in flight: it has entered `restart` and has not yet run its
`p.restarting = false` (line 131, 136, 155 or 158). -/
def Pc.inFlight : Pc → Bool
  | .spawned => false
  | .l160 => false
  | .l161 => false
  | .wait _ => false
  | .returned => false
  | .panicked => false
  | _ => true

/-- Where the main goroutine stands: the line of `main` it is about to run. -/
inductive MainPc
  /-- Before `panic(os.Getenv("GOUP_TERM_SIGNAL"))` (line 42). -/
  | l42
  /-- Before `prj, err := read()` and its error test (lines 43-46). -/
  | l43
  /-- Before `getTermSignal()` (line 49). -/
  | l49
  /-- Before the log line of line 50. -/
  | l50
  /-- Before `signal.Notify` (lines 52-53). -/
  | l52
  /-- Before the `go` statement of the signal handler (line 54). -/
  | l54
  /-- Before `fsnotify.NewWatcher()` and its error test (lines 60-64). -/
  | l60
  /-- Before the `go` statement of the dispatch loop (lines 66-67). -/
  | l67
  /-- In the loop of lines 83-87, with these directories still to register. -/
  | l83 (dirs : List String)
  /-- Before `watcher.Add(prj.Dir)` (line 89). -/
  | l89
  /-- Before `prj.restarting = true` (line 93). -/
  | l93
  /-- Before `go prj.restart()` (line 94). -/
  | l94
  /-- In `<-done` (line 95), for good. -/
  | l95
  deriving DecidableEq, Repr

/-- Where the dispatch goroutine stands (lines 67-81), with the event it
received. -/
inductive DPc
  /-- Not started yet. -/
  | notStarted
  /-- In the `select` of line 69. -/
  | l69
  /-- Before `prj.restarting = true` (line 74). -/
  | l74 (e : validate)
  /-- Before `logger.Println(event)` (line 75). -/
  | l75 (e : validate)
  /-- Before `go prj.restart()` (line 76). -/
  | l76 (e : validate)
  deriving DecidableEq, Repr

/-- Where the signal handler goroutine stands (lines 54-58). -/
inductive HPc
  /-- Not started yet. -/
  | notStarted
  /-- In `<-c` (line 55). -/
  | l55
  /-- Inside `prj.terminate()` (line 56). -/
  | terminate (t : TPc)
  /-- Before `os.Exit(0)` (line 57). -/
  | l57
  deriving DecidableEq, Repr

/-- How the program ended. -/
inductive Ending
  /-- A panic that nothing recovers. -/
  | panic (v : String)
  /-- A `logger.Fatalf`. -/
  | fatal (msg : String)
  /-- An `os.Exit(code)`. -/
  | exit (code : Nat)
  deriving DecidableEq, Repr

/-- The program: the heap, the project behind `prj` once `read` returned it,
the goroutines, the directories registered with the watcher, the effects so
far, and how the program ended when it has. -/
structure Sys where
  heap : Heap
  prj : Option project
  main : MainPc
  dispatcher : DPc
  handler : HPc
  added : List String
  tasks : List Pc
  trace : List Effect
  ended : Option Ending
  deriving DecidableEq, Repr

/-- The program when `main` is called: nothing read, no goroutine but main,
which stands at its first statement. -/
def Sys.init : Sys :=
  { heap := [], prj := none, main := .l42, dispatcher := .notStarted
    handler := .notStarted, added := [], tasks := [], trace := [], ended := none }

/-- A step of one goroutine. -/
inductive Action
  /-- The main goroutine runs its next statement. -/
  | main
  /-- The dispatch goroutine, in its `select`, receives an event for `file` in
  the registered directory `dir` and runs the test of line 71. -/
  | event (dir file : String) (op : Op)
  /-- The dispatch goroutine, in its `select`, receives a watcher error and
  logs it (lines 77-78). -/
  | error (err : String)
  /-- The dispatch goroutine runs its next statement (line 74, 75 or 76). -/
  | dispatch
  /-- The goroutine of the `i`-th started cycle runs its next statement. -/
  | task (i : Nat) (o : Outcome)
  /-- An interrupt or termination signal arrives on `c` and the handler
  receives it (line 55). -/
  | signal
  /-- The signal handler runs its next statement. -/
  | handler (delivered : Bool)
  deriving DecidableEq, Repr

/-- The values a cycle reads, for the program started with these arguments
and this environment: `termSignal` is initialised from the environment. -/
def Startup.config (w : Startup) (args : List String) : Config :=
  { termSignal := Getenv w.env, Args := args }

/-- The next statement of the main goroutine (lines 42-95). -/
def Sys.mainStep (w : Startup) (s : Sys) : Option Sys :=
  match s.main with
  | .l42 => some { s with ended := some (.panic (Getenv w.env)) }
  | .l43 =>
    match read w.input s.heap with
    | .error err =>
      some { s with trace := s.trace ++ [.read]
                    ended := some (.fatal ("failed import: " ++ err)) }
    | .ok (h, prj) =>
      some { s with heap := h, prj := some prj, main := .l49
                    trace := s.trace ++ [.read] }
  | .l49 =>
    match getTermSignal (Getenv w.env) with
    | .error msg => some { s with ended := some (.panic msg) }
    | .ok _ => some { s with main := .l50 }
  | .l50 =>
    some { s with main := .l52
                  trace := s.trace ++ [.log (.usingTerminationSignal (Getenv w.env))] }
  | .l52 => some { s with main := .l54, trace := s.trace ++ [.signalNotify] }
  | .l54 => some { s with main := .l60, handler := .l55 }
  | .l60 =>
    if w.newWatcher = false then
      some { s with trace := s.trace ++ [.newWatcher false]
                    ended := some (.fatal "failed to create fsnotify watcher") }
    else
      some { s with main := .l67, trace := s.trace ++ [.newWatcher true] }
  | .l67 =>
    match s.prj with
    | none => none
    | some prj =>
      some { s with main := .l83 prj.watched, dispatcher := .l69
                    trace := s.trace ++ [.goDispatch] }
  | .l83 [] => some { s with main := .l89 }
  | .l83 (dir :: dirs) =>
    if w.add dir then
      some { s with main := .l83 dirs, added := s.added ++ [dir]
                    trace := s.trace ++ [.watcherAdd dir true] }
    else
      some { s with trace := s.trace ++ [.watcherAdd dir false]
                    ended := some (.fatal ("failed to register: " ++ dir)) }
  | .l89 =>
    match s.prj with
    | none => none
    | some prj =>
      if w.add prj.Dir then
        some { s with main := .l93, added := s.added ++ [prj.Dir]
                      trace := s.trace ++ [.watcherAdd prj.Dir true] }
      else
        some { s with trace := s.trace ++ [.watcherAdd prj.Dir false]
                      ended := some (.fatal ("failed to register: " ++ prj.Dir)) }
  | .l93 =>
    match s.prj with
    | none => none
    | some prj =>
      some { s with main := .l94, prj := some { prj with restarting := true }
                    trace := s.trace ++ [.setRestarting true] }
  | .l94 =>
    some { s with main := .l95, tasks := s.tasks ++ [Pc.spawned]
                  trace := s.trace ++ [.goRestart] }
  | .l95 => none

/-- The dispatch goroutine receives a message in its `select` (lines 69-79):
for an event it runs the test of line 71, for an error it logs it. -/
def Sys.receiveStep (s : Sys) (m : Msg) : Option Sys :=
  match s.dispatcher, s.prj with
  | .l69, some prj =>
    match m with
    | .event e =>
      if prj.restarting || !e.valid then some s
      else some { s with dispatcher := .l74 e }
    | .error err => some { s with trace := s.trace ++ [.log (.watchError err)] }
  | _, _ => none

/-- The next statement of the dispatch goroutine after the test of line 71:
line 74, 75 or 76. -/
def Sys.dispatchStep (s : Sys) : Option Sys :=
  match s.dispatcher, s.prj with
  | .l74 e, some prj =>
    some { s with dispatcher := .l75 e, prj := some { prj with restarting := true }
                  trace := s.trace ++ [.setRestarting true] }
  | .l75 e, _ =>
    some { s with dispatcher := .l76 e, trace := s.trace ++ [.log (.event e)] }
  | .l76 _, _ =>
    some { s with dispatcher := .l69, tasks := s.tasks ++ [Pc.spawned]
                  trace := s.trace ++ [.goRestart] }
  | _, _ => none

/-- The next statement of the goroutine of the `i`-th started cycle.  A panic
in it ends the program. -/
def Sys.taskStep (cfg : Config) (s : Sys) (i : Nat) (o : Outcome) : Option Sys :=
  match s.tasks.get? i, s.prj with
  | some .returned, _ => none
  | some .panicked, _ => none
  | some pc, some prj =>
    let (pc', r) := prj.restartStep cfg o s.heap pc
    some { s with heap := r.heap, prj := some r.prj, tasks := s.tasks.set i pc'
                  trace := s.trace ++ r.trace
                  ended := r.panic.map Ending.panic }
  | _, _ => none

/-- The next statement of the signal handler after it received a signal
(lines 56-57). -/
def Sys.handlerStep (cfg : Config) (s : Sys) (delivered : Bool) : Option Sys :=
  match s.handler, s.prj with
  | .terminate t, some prj =>
    match prj.terminateStep cfg.termSignal delivered t with
    | (_, eff, some msg) =>
      some { s with trace := s.trace ++ eff, ended := some (.panic msg) }
    | (t', eff, none) =>
      some { s with handler := if t' = .done then .l57 else .terminate t'
                    trace := s.trace ++ eff }
  | .l57, _ => some { s with trace := s.trace ++ [.exit 0], ended := some (.exit 0) }
  | _, _ => none

/-- One step of the program.  No goroutine steps once the program has ended;
an event arrives only for a registered directory; the handler receives a
signal only while it waits in `<-c`. -/
def Sys.step (w : Startup) (args : List String) (s : Sys) (a : Action) : Option Sys :=
  match s.ended with
  | some _ => none
  | none =>
    match a with
    | .main => s.mainStep w
    | .event dir file op =>
      if dir ∈ s.added then
        s.receiveStep (.event { Name := dir ++ "/" ++ file, Op := op })
      else none
    | .error err => s.receiveStep (.error err)
    | .dispatch => s.dispatchStep
    | .task i o => s.taskStep (w.config args) i o
    | .signal =>
      if s.handler = .l55 then some { s with handler := .terminate .l111 } else none
    | .handler delivered => s.handlerStep (w.config args) delivered

/-- The program after a schedule of steps; `none` when a step of the schedule
is not enabled. -/
def Sys.run (w : Startup) (args : List String) (s : Sys) : List Action → Option Sys
  | [] => some s
  | a :: as =>
    match s.step w args a with
    | none => none
    | some s' => Sys.run w args s' as

/-- The main goroutine alone for `n` statements, up to the end of the program
or to the receive of line 95. -/
def Sys.runMain (w : Startup) : Nat → Sys → Sys
  | 0, s => s
  | n + 1, s =>
    match s.ended with
    | some _ => s
    | none =>
      match s.mainStep w with
      | none => s
      | some s' => Sys.runMain w n s'

/-- How `main` has ended in a state of the program, if it has: by a panic, by
a `logger.Fatalf`, or in the receive of line 95. -/
def Sys.mainExit (s : Sys) : Option Exit :=
  match s.ended with
  | some (.panic v) => some (Exit.panic v)
  | some (.fatal msg) => some (Exit.fatal msg)
  | some (.exit _) => none
  | none => if s.main = .l95 then some Exit.blocked else none

/-- The number of cycles in flight. -/
def Sys.inFlight (s : Sys) : Nat :=
  s.tasks.countP Pc.inFlight

/-! ## Reading a trace -/

/-- The effect is a build: a `Run` of a command. -/
def Effect.isBuild : Effect → Bool
  | .run _ _ _ => true
  | _ => false

/-- The effect is a signal sent to a process. -/
def Effect.isSignal : Effect → Bool
  | .signal _ _ _ => true
  | _ => false

/-- The effect is an attempt to start a process. -/
def Effect.isStart : Effect → Bool
  | .start _ _ => true
  | _ => false

/-- The effect is a `Wait` for a started child to exit. -/
def Effect.isWait : Effect → Bool
  | .wait _ => true
  | _ => false

/-- The effect is a log line. -/
def Effect.isLog : Effect → Bool
  | .log _ => true
  | _ => false

/-- The effect is a write to `restarting`. -/
def Effect.isSetRestarting : Effect → Bool
  | .setRestarting _ => true
  | _ => false

/-- The effect touches a process: a build, a signal or a start. -/
def Effect.isProcess (e : Effect) : Bool :=
  e.isBuild || e.isSignal || e.isStart

/-- The live child handle of the guard of `terminate`,
`p.cmd != nil && p.cmd.Process != nil`: the pid of the process, if there is
one. -/
def project.livePid (p : project) : Option Nat :=
  match p.cmd with
  | none => none
  | some cmd => cmd.Process

/-- The standard inputs of the children a trace starts, in order. -/
def childStdins : List Effect → List Reader
  | [] => []
  | .start cmd _ :: t => cmd.Stdin :: childStdins t
  | _ :: t => childStdins t

/-! ## Concrete inputs -/

/-- An executable project as `read` leaves it when standard input is a
terminal and there are no dependencies to watch. -/
def demoProject : project :=
  { Name := "main", Deps := [], Target := "/go/bin/app", Dir := "/src/app"
    cmd := none, restarting := false, watched := [], stdin := none }

/-- A configuration with the default termination signal. -/
def demoConfig : Config :=
  { termSignal := "", Args := ["goup", "-v"] }

/-- A startup with `GOUP_TERM_SIGNAL=TERM` in which everything succeeds: the
project is listed, standard input is a terminal, the watcher is created and
every directory registers. -/
def demoStartup : Startup :=
  { env := some "TERM"
    input :=
      { list := .ok { Name := "main", Deps := [], Target := "/go/bin/app",
                      Dir := "/src/app" }
        imp := fun _ => none
        stat := .ok true
        input := .ok [] }
    newWatcher := true
    add := fun _ => true }

/-- A schedule for the program taken from line 43 on: the startup runs up to
`watcher.Add(prj.Dir)`; a `Write` of `main.go` arrives, the dispatch goroutine
runs lines 74-76 and the cycle it starts enters `restart`; then the main
goroutine runs lines 93 and 94 and the cycle it starts enters `restart` too. -/
def raceSchedule : List Action :=
  [.main, .main, .main, .main, .main, .main, .main, .main, .main,
   .event "/src/app" "main.go" Write, .dispatch, .dispatch, .dispatch,
   .task 0 ⟨true, true, some 7⟩, .main, .main, .task 1 ⟨true, true, some 8⟩]

/-- A schedule for the program taken from line 43 on: the startup runs to its
end and the first cycle starts its child 7 and clears `restarting` (line 158);
a `Write` of `main.go` then starts a second cycle, which signals child 7 and
assigns a new command to `p.cmd` (line 149); the first cycle then runs line
160. -/
def staleHandleSchedule : List Action :=
  List.replicate 11 Action.main ++
  List.replicate 11 (Action.task 0 ⟨true, true, some 7⟩) ++
  [.event "/src/app" "main.go" Write, .dispatch, .dispatch, .dispatch] ++
  List.replicate 8 (Action.task 1 ⟨true, true, some 8⟩) ++
  [.task 0 ⟨true, true, some 7⟩]

/-- What `read` meets when standard input is redirected and holds `B`. -/
def pipedInput (B : List Byte) : ReadInput :=
  { list := .ok { Name := "main", Deps := [], Target := "/go/bin/app",
                  Dir := "/src/app" }
    imp := fun _ => none
    stat := .ok false
    input := .ok B }


/-! # Theorems -/

/-! ## The event filter -/

/-- The test `n&op == op` for a one-bit `op` is the test of that bit. -/
theorem and_two_pow_eq_iff (n k : Nat) : n &&& 2 ^ k = 2 ^ k ↔ n.testBit k = true := by
  rw [Nat.and_two_pow]
  cases h : n.testBit k <;> simp
  exact (Nat.two_pow_pos k).ne

/-- The method `ops` holds exactly when the mask has the bit of `Write`, of
`Create` or of `Remove`. -/
theorem ops_iff (v : validate) :
    v.ops = true ↔
      (v.Op.testBit 1 = true ∨ v.Op.testBit 0 = true ∨ v.Op.testBit 2 = true) := by
  have h0 := and_two_pow_eq_iff v.Op 0
  have h1 := and_two_pow_eq_iff v.Op 1
  have h2 := and_two_pow_eq_iff v.Op 2
  simp only [pow_zero, pow_one, show (2 : Nat) ^ 2 = 4 from rfl] at h0 h1 h2
  simp [validate.ops, watchOps, Write, Create, Remove, h0, h1, h2]

/-- The method `ext` holds exactly when the extension of the name is `.go`. -/
theorem ext_iff (v : validate) : v.ext = true ↔ Ext v.Name = ".go" := by
  simp [validate.ext, watchExt]

/-- The loop of `filepath.Ext`, started at the end of `pre` in the path
`pre ++ suf`, in terms of the reversed prefix. -/
theorem extLoop_append (pre : List Char) : ∀ suf : List Char,
    extLoop (pre ++ suf) pre.length =
      if '.' ∈ pre.reverse.takeWhile (fun c => !IsPathSeparator c) then
        '.' :: (((pre.reverse.takeWhile fun c => !IsPathSeparator c).takeWhile
          fun c => c != '.').reverse ++ suf)
      else [] := by
  induction pre using List.reverseRecOn with
  | nil => intro suf; simp [extLoop]
  | append_singleton init c ih =>
    intro suf
    have hget : (init ++ [c] ++ suf).get? init.length = some c := by
      rw [List.get?_eq_getElem?, List.append_assoc,
        List.getElem?_append_right (le_refl _)]
      simp
    have hlen : (init ++ [c]).length = init.length + 1 := by simp
    rw [hlen, extLoop, hget]
    simp only [List.reverse_append, List.reverse_cons, List.reverse_nil, List.nil_append,
      List.singleton_append, List.takeWhile_cons]
    by_cases hsep : IsPathSeparator c = true
    · simp [hsep]
    · simp only [hsep, if_false, Bool.not_false, if_true, Bool.false_eq_true,
        Bool.not_eq_true]
      by_cases hdot : c = '.'
      · subst hdot
        simp
      · have := ih (c :: suf)
        simp only [List.append_assoc, List.singleton_append] at this ⊢
        rw [if_neg hdot, this]
        have hne : ('.' : Char) ≠ c := fun h => hdot h.symm
        simp [hdot, hne, List.takeWhile_cons]

/-- The function `filepath.Ext` computes the extension of the specification:
the suffix starting at the last `'.'` of the final path element, empty when
there is none. -/
theorem Ext_eq_extension (path : String) : Ext path = extension path := by
  have := extLoop_append path.toList []
  simp only [List.append_nil] at this
  unfold Ext extension suffixFromLastDot finalElement
  rw [this]
  simp

/-- Claim C1, as the code has it: an event qualifies exactly when its `Op` mask
contains the bit of `Write`, of `Create` or of `Remove` (whatever other bits it
has) and the extension of its name is in the watched set, which is `.go`.  For an
event whose mask is a single kind this is the claim as written: it qualifies
exactly when the kind is `Write`, `Create` or `Remove` and the extension is
watched.  An event whose mask is `Rename` or `Chmod` alone never qualifies, and
no event with another extension than `.go` does.  The extension `filepath.Ext`
computes is the suffix starting at the last `'.'` of the final path element,
empty when there is none. -/
theorem valid_iff_watched_bit_and_ext :
    (∀ e : validate, e.valid = true ↔
      (e.Op.testBit 1 = true ∨ e.Op.testBit 0 = true ∨ e.Op.testBit 2 = true) ∧
        Ext e.Name ∈ watchExt) ∧
    (∀ e : validate, e.Op ∈ [Create, Write, Remove, Rename, Chmod] →
      (e.valid = true ↔ e.Op ∈ [Write, Create, Remove] ∧ Ext e.Name ∈ watchExt)) ∧
    (∀ name : String,
      validate.valid ⟨name, Rename⟩ = false ∧ validate.valid ⟨name, Chmod⟩ = false) ∧
    (∀ e : validate, Ext e.Name ≠ ".go" → e.valid = false) ∧
    (∀ path : String, Ext path = extension path) := by
  have key : ∀ e : validate, e.valid = true ↔
      (e.Op.testBit 1 = true ∨ e.Op.testBit 0 = true ∨ e.Op.testBit 2 = true) ∧
        Ext e.Name ∈ watchExt := by
    intro e
    have hx : Ext e.Name ∈ watchExt ↔ Ext e.Name = ".go" := by simp [watchExt]
    rw [hx, ← ops_iff, ← ext_iff]
    simp [validate.valid]
  refine ⟨key, ?_, ?_, ?_, Ext_eq_extension⟩
  · intro e he
    have bits : ∀ o ∈ [Create, Write, Remove, Rename, Chmod],
        ((Nat.testBit o 1 = true ∨ Nat.testBit o 0 = true ∨ Nat.testBit o 2 = true) ↔
          o ∈ [Write, Create, Remove]) := by decide
    rw [key e, bits e.Op he]
  · intro name
    have hr : ¬ (Nat.testBit Rename 1 = true ∨ Nat.testBit Rename 0 = true ∨
        Nat.testBit Rename 2 = true) := by decide
    have hc : ¬ (Nat.testBit Chmod 1 = true ∨ Nat.testBit Chmod 0 = true ∨
        Nat.testBit Chmod 2 = true) := by decide
    constructor
    · rw [Bool.eq_false_iff]
      exact fun h => hr ((key _).mp h).1
    · rw [Bool.eq_false_iff]
      exact fun h => hc ((key _).mp h).1
  · intro e he
    rw [Bool.eq_false_iff]
    intro h
    have h' := ((key e).mp h).2
    simp [watchExt] at h'
    exact he h'

/-- Claim C1 as written fails: the event `Write|Chmod` on `main.go` qualifies,
and its operation mask is none of `Write`, `Create`, `Remove`; it carries the
kind `Chmod`. -/
theorem valid_write_chmod_counterexample :
    validate.valid ⟨"main.go", Write ||| Chmod⟩ = true ∧
      (Write ||| Chmod) ∉ [Write, Create, Remove] ∧
      (Write ||| Chmod) &&& Chmod = Chmod ∧
      Ext "main.go" ∈ watchExt := by
  decide

/-! ## The termination signal -/

/-- The two ways `getTermSignal` ends. -/
theorem getTermSignal_cases (s : String) :
    (s ∈ ["INT", "TERM", ""] ∧ ∃ sig, getTermSignal s = .ok sig) ∨
    (s ∉ ["INT", "TERM", ""] ∧
      getTermSignal s = .error ("invalid GOUP_TERM_SIGNAL value: " ++ s)) := by
  simp only [List.mem_cons, List.mem_singleton, List.not_mem_nil, or_false]
  unfold getTermSignal
  split_ifs with h1 h2
  · exact Or.inl ⟨Or.inl h1, _, rfl⟩
  · exact Or.inl ⟨Or.inr h2, _, rfl⟩
  · simp only [not_or] at h2
    exact Or.inr ⟨by simp [h1, h2.1, h2.2], rfl⟩

/-- Claim C2: `getTermSignal` returns `SIGINT` for `"INT"`, `SIGTERM` for
`"TERM"` and for the empty (unset) value, and panics on every other string,
among them `"int"` and `"TERM "`; it panics exactly when the value is none of
`"INT"`, `"TERM"`, `""`. -/
theorem getTermSignal_total :
    getTermSignal "INT" = .ok Signal.SIGINT ∧
    getTermSignal "TERM" = .ok Signal.SIGTERM ∧
    getTermSignal (Getenv none) = .ok Signal.SIGTERM ∧
    getTermSignal "" = .ok Signal.SIGTERM ∧
    (∀ s : String, s ∉ ["INT", "TERM", ""] →
      getTermSignal s = .error ("invalid GOUP_TERM_SIGNAL value: " ++ s)) ∧
    getTermSignal "int" = .error "invalid GOUP_TERM_SIGNAL value: int" ∧
    getTermSignal "TERM " = .error "invalid GOUP_TERM_SIGNAL value: TERM " ∧
    (∀ s : String, (∃ msg, getTermSignal s = .error msg) ↔ s ∉ ["INT", "TERM", ""]) ∧
    (∀ s : String, (∃ sig, getTermSignal s = .ok sig) ↔ s ∈ ["INT", "TERM", ""]) := by
  refine ⟨by decide, by decide, by decide, by decide, ?_, by decide, by decide, ?_, ?_⟩
  · intro s hs
    simp only [List.mem_cons, List.mem_singleton, List.not_mem_nil, or_false,
      not_or] at hs
    simp [getTermSignal, hs.1, hs.2.1, hs.2.2]
  · intro s
    simp only [List.mem_cons, List.mem_singleton, List.not_mem_nil, or_false]
    unfold getTermSignal
    split_ifs with h1 h2
    · simp [h1]
    · rcases h2 with h2 | h2 <;> simp [h2]
    · simp only [not_or] at h2
      simp [h1, h2.1, h2.2]
  · intro s
    simp only [List.mem_cons, List.mem_singleton, List.not_mem_nil, or_false]
    unfold getTermSignal
    split_ifs with h1 h2
    · simp [h1]
    · rcases h2 with h2 | h2 <;> simp [h2]
    · simp only [not_or] at h2
      simp [h1, h2.1, h2.2]

/-! ## Startup -/

/-- The function `main` ends in the panic of line 42 whatever the value of
`GOUP_TERM_SIGNAL` and whatever the outside world answers, with no effect
before it. -/
theorem main_always_panics (s : Startup) : main s = ([], Exit.panic (Getenv s.env)) := by
  simp [main, andThen, goPanic]

/-- Lines 43-95 taken alone do what claim C3 says: when `read` succeeds they
panic exactly when the value is none of `"INT"`, `"TERM"`, `""`, and then no
watcher was created and no cycle started; for an accepted value they go on to
create the watcher. -/
theorem mainFrom43_panics_iff (s : Startup) (h : Heap) (prj : project)
    (hread : read s.input [] = .ok (h, prj)) :
    ((∃ v, (mainFrom43 s).2 = Exit.panic v) ↔ Getenv s.env ∉ ["INT", "TERM", ""]) ∧
    ((∃ v, (mainFrom43 s).2 = Exit.panic v) →
      ∀ e ∈ (mainFrom43 s).1, e = Effect.read) ∧
    (Getenv s.env ∈ ["INT", "TERM", ""] →
      Effect.newWatcher s.newWatcher ∈ (mainFrom43 s).1) := by
  have hsig := getTermSignal_cases (Getenv s.env)
  rcases hsig with ⟨hin, sig, hsig⟩ | ⟨hout, hsig⟩
  · have hnp : ¬ ∃ v, (mainFrom43 s).2 = Exit.panic v := by
      rintro ⟨v, hv⟩
      revert hv
      simp only [mainFrom43, hread, hsig]
      cases s.newWatcher
      · simp
      · rcases hreg : registerAll s.add prj.watched with ⟨tr, _ | dir⟩ <;>
          cases hadd : s.add prj.Dir <;> simp
    refine ⟨⟨fun hp => absurd hp hnp, fun hn => absurd hin hn⟩,
      fun hp => absurd hp hnp, fun _ => ?_⟩
    simp only [mainFrom43, hread, hsig]
    cases s.newWatcher
    · simp
    · rcases hreg : registerAll s.add prj.watched with ⟨tr, _ | dir⟩ <;>
        cases hadd : s.add prj.Dir <;> simp
  · have hm : mainFrom43 s =
        ([Effect.read],
          Exit.panic ("invalid GOUP_TERM_SIGNAL value: " ++ Getenv s.env)) := by
      simp [mainFrom43, hread, hsig]
    refine ⟨⟨fun _ => hout, fun _ => ⟨_, by rw [hm]⟩⟩, fun _ => ?_, fun hin => absurd hin hout⟩
    rw [hm]
    simp

/-- A witness of `mainFrom43_panics_iff`: the startup with
`GOUP_TERM_SIGNAL=TERM`. -/
theorem mainFrom43_panics_iff_witness :
    Effect.newWatcher true ∈ (mainFrom43 demoStartup).1 :=
  (mainFrom43_panics_iff demoStartup [] demoProject (by decide)).2.2 (by decide)

/-- Lines 43-95 start the first cycle only with an accepted value of
`GOUP_TERM_SIGNAL`: line 49 has checked it. -/
theorem mainFrom43_goRestart_accepted (s : Startup)
    (hgo : Effect.goRestart ∈ (mainFrom43 s).1) : Getenv s.env ∈ ["INT", "TERM", ""] := by
  rcases getTermSignal_cases (Getenv s.env) with ⟨hin, -⟩ | ⟨-, hsig⟩
  · exact hin
  · exfalso
    revert hgo
    unfold mainFrom43
    rcases read s.input [] with err | ⟨h, prj⟩
    · simp
    · simp [hsig]

/-- A witness of `mainFrom43_goRestart_accepted`: the startup with
`GOUP_TERM_SIGNAL=TERM`. -/
theorem mainFrom43_goRestart_accepted_witness :
    Getenv demoStartup.env ∈ ["INT", "TERM", ""] :=
  mainFrom43_goRestart_accepted demoStartup (by decide)

/-- Claim C3 at `GOUP_TERM_SIGNAL=TERM`, an accepted value, with everything
else succeeding: `main` ends in a panic carrying the value, before `read`, the
watcher and the first cycle, although `getTermSignal` accepts the value and
lines 43-95 would register the directory and block in `<-done`.  The same
holds for `INT`, for the empty value and for the unset variable. -/
theorem main_panics_on_accepted_value :
    main demoStartup = ([], Exit.panic "TERM") ∧
    getTermSignal (Getenv demoStartup.env) = .ok Signal.SIGTERM ∧
    mainFrom43 demoStartup =
      ([.read, .log (.usingTerminationSignal "TERM"), .signalNotify, .newWatcher true,
        .goDispatch, .watcherAdd "/src/app" true, .setRestarting true, .goRestart],
       Exit.blocked) ∧
    (∀ v ∈ [some "INT", some "TERM", some "", none],
      main { demoStartup with env := v } = ([], Exit.panic (Getenv v)) ∧
      (∃ sig, getTermSignal (Getenv v) = .ok sig) ∧
      (mainFrom43 { demoStartup with env := v }).2 = Exit.blocked ∧
      Effect.newWatcher true ∈ (mainFrom43 { demoStartup with env := v }).1) := by
  refine ⟨by decide, by decide, by decide, ?_⟩
  intro v hv
  simp only [List.mem_cons, List.mem_singleton, List.not_mem_nil, or_false] at hv
  rcases hv with rfl | rfl | rfl | rfl
  · exact ⟨by decide, ⟨_, rfl⟩, by decide, by decide⟩
  · exact ⟨by decide, ⟨_, rfl⟩, by decide, by decide⟩
  · exact ⟨by decide, ⟨_, rfl⟩, by decide, by decide⟩
  · exact ⟨by decide, ⟨_, rfl⟩, by decide, by decide⟩

/-! ## The dispatch loop -/

/-- While `restarting` is set the dispatch loop drops every event: the project
stays as it is and nothing happens. -/
theorem dispatchAll_restarting (p : project) (hp : p.restarting = true)
    (evs : List validate) : dispatchAll p (evs.map Msg.event) = (p, []) := by
  induction evs with
  | nil => rfl
  | cons e es ih => simp [dispatchAll, dispatch, hp, ih]

/-- The dispatch loop handles a list of messages one after the other. -/
theorem dispatchAll_append (p : project) (ms ns : List Msg) :
    dispatchAll p (ms ++ ns) =
      ((dispatchAll (dispatchAll p ms).1 ns).1,
        (dispatchAll p ms).2 ++ (dispatchAll (dispatchAll p ms).1 ns).2) := by
  induction ms generalizing p with
  | nil => simp [dispatchAll]
  | cons m ms ih => simp [dispatchAll, ih]

/-- Claim C4: from `restarting == false`, a burst of `N >= 1` qualifying
events handled with no cycle finishing in between starts exactly one cycle.
The first event sets `restarting` and starts it; the whole burst leaves the
project and the effects that the first event alone leaves, so nothing of the
other `N - 1` events is kept for later; each of them is handled in a state
with `restarting` set, which it leaves as it is, with no effect.  And an event
that does not qualify never starts a cycle nor changes the project. -/
theorem dispatch_coalesces (p : project) (evs : List validate) (N : Nat)
    (hN : 1 ≤ N) (hlen : evs.length = N) (hidle : p.restarting = false)
    (hq : ∀ e ∈ evs, e.valid = true) :
    cyclesStarted (dispatchAll p (evs.map Msg.event)).2 = 1 ∧
    (dispatchAll p (evs.map Msg.event)).1 = { p with restarting := true } ∧
    (∃ first rest, evs = first :: rest ∧ rest.length = N - 1 ∧
      dispatchAll p (evs.map Msg.event) = dispatch p (Msg.event first) ∧
      (dispatch p (Msg.event first)).2 =
        [.setRestarting true, .log (.event first), .goRestart]) ∧
    (∀ pre e post, evs = pre ++ e :: post → pre ≠ [] →
      (dispatchAll p (pre.map Msg.event)).1.restarting = true ∧
      dispatch (dispatchAll p (pre.map Msg.event)).1 (Msg.event e) =
        ((dispatchAll p (pre.map Msg.event)).1, [])) ∧
    (∀ (q : project) (e : validate), e.valid = false →
      dispatch q (Msg.event e) = (q, [])) := by
  obtain ⟨first, rest, rfl⟩ : ∃ first rest, evs = first :: rest := by
    cases evs with
    | nil => simp at hlen; omega
    | cons a l => exact ⟨a, l, rfl⟩
  have hfirst : first.valid = true := hq first (List.mem_cons_self _ _)
  have hd : dispatch p (Msg.event first) =
      ({ p with restarting := true },
        [.setRestarting true, .log (.event first), .goRestart]) := by
    simp [dispatch, hidle, hfirst]
  have hall : ∀ l : List validate, dispatchAll p ((first :: l).map Msg.event) =
      ({ p with restarting := true },
        [.setRestarting true, .log (.event first), .goRestart]) := by
    intro l
    simp only [List.map_cons, dispatchAll, hd]
    rw [dispatchAll_restarting _ rfl]
    simp
  refine ⟨?_, ?_, ⟨first, rest, rfl, ?_, ?_, ?_⟩, ?_, ?_⟩
  · rw [hall]
    simp [cyclesStarted]
  · rw [hall]
  · simp at hlen; omega
  · rw [hall, hd]
  · rw [hd]
  · intro pre e post hsplit hpre
    obtain ⟨a, l, rfl⟩ : ∃ a l, pre = a :: l := by
      cases pre with
      | nil => exact absurd rfl hpre
      | cons a l => exact ⟨a, l, rfl⟩
    have ha : a = first := by
      simp at hsplit
      exact hsplit.1.symm
    subst ha
    rw [hall]
    simp [dispatch]
  · intro q e he
    simp [dispatch, he]

/-- A witness of `dispatch_coalesces`: three writes of `main.go` reaching the
idle dispatch loop. -/
theorem dispatch_coalesces_witness :
    cyclesStarted (dispatchAll demoProject
      ((List.replicate 3 (⟨"/src/app/main.go", Write⟩ : validate)).map Msg.event)).2 = 1 :=
  (dispatch_coalesces demoProject (List.replicate 3 ⟨"/src/app/main.go", Write⟩) 3
    (by decide) (by decide) (by decide) (by decide)).1

/-! ## `terminate` and `restart` -/

/-- With an accepted `termSignal`, `terminate` does not panic; it sends the
configured signal once to the live child, and nothing when there is none. -/
theorem terminate_accepted (ts : String) (sig : Signal) (hsig : getTermSignal ts = .ok sig)
    (d : Bool) (p : project) :
    (p.terminate ts d).2 = none ∧
    (p.terminate ts d).1 =
      (match p.livePid with
        | none => []
        | some pid =>
          if d then [.log (.terminatingProcess pid), .signal pid sig true]
          else [.log (.terminatingProcess pid), .signal pid sig false,
                .log (.failedToTerminate pid)]) := by
  unfold project.terminate project.livePid
  rcases p.cmd with _ | cmd
  · simp
  · rcases hp : cmd.Process with _ | pid
    · simp [hp]
    · cases d <;> simp [hp, hsig]

/-- Without a live child handle `terminate` does nothing, whatever the
configuration. -/
theorem terminate_no_handle (ts : String) (d : Bool) (p : project)
    (hp : p.livePid = none) : p.terminate ts d = ([], none) := by
  unfold project.terminate
  unfold project.livePid at hp
  rcases hc : p.cmd with _ | cmd
  · simp
  · rw [hc] at hp
    simp only at hp
    simp [hp]

/-- The call of `restart` whose build fails (lines 129-133). -/
theorem restart_build_failed (cfg : Config) (o : Outcome) (h : Heap) (p : project)
    (hb : o.build = false) :
    p.restart cfg o h =
      { trace := [.log (if p.Name = "main" then .restartingApplication
                        else .recompilingPackage),
                  .run "go" ["install"] false, .log .failedToRunGoInstall,
                  .setRestarting false]
        heap := h, prj := { p with restarting := false }, panic := none } := by
  simp [project.restart, hb]

/-- The call of `restart` for a library whose build succeeds (lines 135-138). -/
theorem restart_library (cfg : Config) (o : Outcome) (h : Heap) (p : project)
    (hb : o.build = true) (hn : p.Name ≠ "main") :
    p.restart cfg o h =
      { trace := [.log .recompilingPackage, .run "go" ["install"] true,
                  .setRestarting false]
        heap := h, prj := { p with restarting := false }, panic := none } := by
  simp [project.restart, hb, hn]

/-- The call of `restart` for an executable whose build succeeds, with an
accepted `termSignal` (lines 140-161). -/
theorem restart_executable (cfg : Config) (o : Outcome) (h : Heap) (p : project)
    (hb : o.build = true) (hn : p.Name = "main")
    (sig : Signal) (hsig : getTermSignal cfg.termSignal = .ok sig) :
    p.restart cfg o h =
      { trace :=
          [.log .restartingApplication, .run "go" ["install"] true] ++
          (p.terminate cfg.termSignal o.signal).1 ++
          (match o.start with
            | none =>
              [.start (Command p.Target (cfg.Args.drop 1) (p.childStdin h).2) none,
               .log .failedToRunCommand, .setRestarting false]
            | some pid =>
              [.start (Command p.Target (cfg.Args.drop 1) (p.childStdin h).2) (some pid),
               .setRestarting false, .log (.startedOnPID pid), .wait pid])
        heap := (p.childStdin h).1
        prj :=
          { p with
            cmd := some { Command p.Target (cfg.Args.drop 1) (p.childStdin h).2 with
                          Process := o.start }
            restarting := false }
        panic := none } := by
  have ht := terminate_accepted cfg.termSignal sig hsig o.signal p
  rcases hterm : p.terminate cfg.termSignal o.signal with ⟨t2, pn⟩
  rw [hterm] at ht
  simp only at ht
  obtain ⟨hpn, -⟩ := ht
  subst hpn
  rcases hs : o.start with _ | pid
  · simp [project.restart, hb, hn, hterm, hs, Command]
  · simp [project.restart, hb, hn, hterm, hs, Command]

/-- The method `terminate` only logs and signals. -/
theorem terminate_trace_mem (ts : String) (d : Bool) (p : project) :
    ∀ e ∈ (p.terminate ts d).1, e.isLog = true ∨ e.isSignal = true := by
  unfold project.terminate
  rcases p.cmd with _ | cmd
  · simp
  · rcases hp : cmd.Process with _ | pid
    · simp [hp]
    · rcases hg : getTermSignal ts with msg | sig
      · simp [hp, hg, Effect.isLog]
      · cases d <;> simp [hp, hg, Effect.isLog, Effect.isSignal]

/-- Every signal `terminate` sends goes to the live child. -/
theorem terminate_signal_mem (ts : String) (d : Bool) (p : project) :
    ∀ e ∈ (p.terminate ts d).1, e.isSignal = true →
      ∃ pid sig ok, p.livePid = some pid ∧ e = Effect.signal pid sig ok := by
  unfold project.terminate project.livePid
  rcases p.cmd with _ | cmd
  · simp
  · rcases hp : cmd.Process with _ | pid
    · simp [hp]
    · rcases hg : getTermSignal ts with msg | sig
      · simp [hp, hg, Effect.isSignal]
      · cases d <;> simp [hp, hg, Effect.isSignal]

/-- An accepted value of `termSignal` maps to a signal. -/
theorem getTermSignal_accepted (ts : String) (h : ts ∈ ["INT", "TERM", ""]) :
    ∃ sig, getTermSignal ts = .ok sig := by
  rcases getTermSignal_cases ts with ⟨-, hs⟩ | ⟨hn, -⟩
  · exact hs
  · exact absurd h hn

/-- Claim C6: with the termination signal that startup accepted, `restart`
returns with `restarting == false` for every outcome of the build, every kind
of target and every outcome of the start.  It never writes `true` to
`restarting`; it writes `false` after the build attempt and, for an executable
that built, after the start attempt, and before any `Wait` for the child: what
follows the write is only the log line and the `Wait`.  The dispatch loop in
turn never clears `restarting`. -/
theorem restart_returns_to_idle (cfg : Config) (o : Outcome) (h : Heap) (p : project)
    (hsig : cfg.termSignal ∈ ["INT", "TERM", ""]) :
    (p.restart cfg o h).panic = none ∧
    (p.restart cfg o h).prj.restarting = false ∧
    Effect.setRestarting true ∉ (p.restart cfg o h).trace ∧
    (∃ pre post, (p.restart cfg o h).trace = pre ++ Effect.setRestarting false :: post ∧
      (∀ e ∈ pre, e.isWait = false ∧ e.isSetRestarting = false) ∧
      (∃ e ∈ pre, e.isBuild = true) ∧
      (o.build = true ∧ p.Name = "main" → ∃ e ∈ pre, e.isStart = true) ∧
      (∀ e ∈ post, e.isLog = true ∨ e.isWait = true)) ∧
    (∀ (q : project) (m : Msg),
      (q.restarting = true → (dispatch q m).1.restarting = true) ∧
      Effect.setRestarting false ∉ (dispatch q m).2) := by
  obtain ⟨sig, hsig⟩ := getTermSignal_accepted _ hsig
  have hdisp : ∀ (q : project) (m : Msg),
      (q.restarting = true → (dispatch q m).1.restarting = true) ∧
      Effect.setRestarting false ∉ (dispatch q m).2 := by
    intro q m
    cases m with
    | event e =>
      simp only [dispatch]
      split_ifs <;> simp_all
    | error err => simp [dispatch]
  cases hb : o.build
  · rw [restart_build_failed cfg o h p hb]
    refine ⟨rfl, rfl, by simp, ⟨[_, _, _], [], rfl, ?_, ?_, ?_, by simp⟩, hdisp⟩
    · simp [Effect.isWait, Effect.isSetRestarting]
    · simp [Effect.isBuild]
    · simp
  · by_cases hn : p.Name = "main"
    · rw [restart_executable cfg o h p hb hn sig hsig]
      have hterm := terminate_trace_mem cfg.termSignal o.signal p
      have hterm' : ∀ e ∈ (p.terminate cfg.termSignal o.signal).1,
          e.isWait = false ∧ e.isSetRestarting = false ∧ e ≠ Effect.setRestarting true := by
        intro e he
        rcases hterm e he with h1 | h1 <;> cases e <;>
          simp_all [Effect.isLog, Effect.isSignal, Effect.isWait, Effect.isSetRestarting]
      rcases hs : o.start with _ | pid
      · refine ⟨rfl, rfl, ?_, ⟨[.log .restartingApplication, .run "go" ["install"] true] ++
            (p.terminate cfg.termSignal o.signal).1 ++
            [.start (Command p.Target (cfg.Args.drop 1) (p.childStdin h).2) none,
             .log .failedToRunCommand], [], by simp, ?_, ?_, ?_, by simp⟩, hdisp⟩
        · simp only [List.mem_append, not_or]
          exact ⟨⟨by simp, fun hm => (hterm' _ hm).2.2 rfl⟩, by simp⟩
        · intro e he
          simp only [List.mem_append] at he
          rcases he with (he | he) | he
          · simp at he
            rcases he with rfl | rfl <;> simp [Effect.isWait, Effect.isSetRestarting]
          · exact ⟨(hterm' e he).1, (hterm' e he).2.1⟩
          · simp at he
            rcases he with rfl | rfl <;> simp [Effect.isWait, Effect.isSetRestarting]
        · exact ⟨.run "go" ["install"] true, by simp, rfl⟩
        · intro _
          exact ⟨.start (Command p.Target (cfg.Args.drop 1) (p.childStdin h).2) none,
            by simp, rfl⟩
      · refine ⟨rfl, rfl, ?_, ⟨[.log .restartingApplication, .run "go" ["install"] true] ++
            (p.terminate cfg.termSignal o.signal).1 ++
            [.start (Command p.Target (cfg.Args.drop 1) (p.childStdin h).2) (some pid)],
            [.log (.startedOnPID pid), .wait pid], by simp, ?_, ?_, ?_, ?_⟩, hdisp⟩
        · simp only [List.mem_append, not_or]
          exact ⟨⟨by simp, fun hm => (hterm' _ hm).2.2 rfl⟩, by simp⟩
        · intro e he
          simp only [List.mem_append] at he
          rcases he with (he | he) | he
          · simp at he
            rcases he with rfl | rfl <;> simp [Effect.isWait, Effect.isSetRestarting]
          · exact ⟨(hterm' e he).1, (hterm' e he).2.1⟩
          · simp at he
            subst he
            simp [Effect.isWait, Effect.isSetRestarting]
        · exact ⟨.run "go" ["install"] true, by simp, rfl⟩
        · intro _
          exact ⟨.start (Command p.Target (cfg.Args.drop 1) (p.childStdin h).2) (some pid),
            by simp, rfl⟩
        · simp [Effect.isLog, Effect.isWait]
    · rw [restart_library cfg o h p hb hn]
      refine ⟨rfl, rfl, by simp, ⟨[_, _], [], rfl, ?_, ?_, ?_, by simp⟩, hdisp⟩
      · simp [Effect.isWait, Effect.isSetRestarting]
      · simp [Effect.isBuild]
      · intro hh
        exact absurd hh.2 hn

/-- A witness of `restart_returns_to_idle`: the first cycle of the executable
project, everything succeeding. -/
theorem restart_returns_to_idle_witness :
    (demoProject.restart demoConfig ⟨true, true, some 7⟩ []).prj.restarting = false :=
  (restart_returns_to_idle demoConfig ⟨true, true, some 7⟩ [] demoProject (by decide)).2.1

/-- A call of `restart` whose build fails, or for a library, leaves the child
handle, the name and the heap as they were, does not panic, and neither signals
nor starts a process. -/
theorem restart_untouched (cfg : Config) (o : Outcome) (h : Heap) (p : project)
    (hno : ¬ (o.build = true ∧ p.Name = "main")) :
    (p.restart cfg o h).panic = none ∧
    (p.restart cfg o h).prj.cmd = p.cmd ∧
    (p.restart cfg o h).prj.Name = p.Name ∧
    (p.restart cfg o h).heap = h ∧
    (∀ e ∈ (p.restart cfg o h).trace, e.isSignal = false ∧ e.isStart = false) := by
  cases hb : o.build
  · rw [restart_build_failed cfg o h p hb]
    refine ⟨rfl, rfl, rfl, rfl, ?_⟩
    simp [Effect.isSignal, Effect.isStart]
  · have hn : p.Name ≠ "main" := fun hn => hno ⟨hb, hn⟩
    rw [restart_library cfg o h p hb hn]
    refine ⟨rfl, rfl, rfl, rfl, ?_⟩
    simp [Effect.isSignal, Effect.isStart]

/-- Any number of cycles of a library, or of cycles whose builds all fail,
leave the child handle as it was and neither signal nor start a process. -/
theorem restarts_untouched (cfg : Config) (os : List Outcome) (h : Heap) (p : project)
    (hno : p.Name ≠ "main" ∨ ∀ o ∈ os, o.build = false) :
    (restarts cfg os h p).panic = none ∧
    (restarts cfg os h p).prj.cmd = p.cmd ∧
    (∀ e ∈ (restarts cfg os h p).trace, e.isSignal = false ∧ e.isStart = false) := by
  induction os generalizing h p with
  | nil => simp [restarts]
  | cons o os ih =>
    have hno1 : ¬ (o.build = true ∧ p.Name = "main") := by
      rintro ⟨hb, hn⟩
      rcases hno with hno | hno
      · exact hno hn
      · have := hno o (List.mem_cons_self _ _)
        simp [hb] at this
    obtain ⟨h1, h2, h3, h4, h5⟩ := restart_untouched cfg o h p hno1
    have hno2 : (p.restart cfg o h).prj.Name ≠ "main" ∨ ∀ o' ∈ os, o'.build = false := by
      rcases hno with hno | hno
      · exact Or.inl (by rw [h3]; exact hno)
      · exact Or.inr fun o' ho' => hno o' (List.mem_cons_of_mem _ ho')
    obtain ⟨i1, i2, i3⟩ := ih (p.restart cfg o h).heap (p.restart cfg o h).prj hno2
    simp only [restarts, h1]
    refine ⟨i1, by rw [i2, h2], ?_⟩
    intro e he
    simp only [List.mem_append] at he
    rcases he with he | he
    · exact h5 e he
    · exact i3 e he

/-- Every signal a cycle sends goes to the child that was live when the cycle
began. -/
theorem restart_signal_mem (cfg : Config) (o : Outcome) (h : Heap) (p : project)
    (sig : Signal) (hsig : getTermSignal cfg.termSignal = .ok sig) :
    ∀ e ∈ (p.restart cfg o h).trace, e.isSignal = true →
      ∃ pid sig ok, p.livePid = some pid ∧ e = Effect.signal pid sig ok := by
  intro e he hsg
  by_cases hno : o.build = true ∧ p.Name = "main"
  · rw [restart_executable cfg o h p hno.1 hno.2 sig hsig] at he
    simp only [List.mem_append] at he
    rcases he with (he | he) | he
    · simp at he
      rcases he with rfl | rfl <;> simp [Effect.isSignal] at hsg
    · exact terminate_signal_mem _ _ p e he hsg
    · rcases hst : o.start with _ | pid
      · rw [hst] at he
        simp at he
        rcases he with rfl | rfl | rfl <;> simp [Effect.isSignal] at hsg
      · rw [hst] at he
        simp at he
        rcases he with rfl | rfl | rfl | rfl <;> simp [Effect.isSignal] at hsg
  · have := ((restart_untouched cfg o h p hno).2.2.2.2 e he).1
    simp [hsg] at this

/-- Claim C7: with the termination signal that startup accepted, a cycle
attempts to start a child exactly when the build succeeded and the project is
named `main`, and it sends a signal to the current child, the one with a live
handle, exactly then too; every signal it sends goes to that child, so a cycle
with no current child signals nobody.  When the build fails or the
target is a library the handle `p.cmd` is left as it was, no signal is sent
and no process is started, in one cycle and over any number of them. -/
theorem restart_touches_process_iff (cfg : Config) (o : Outcome) (h : Heap) (p : project)
    (hsig : cfg.termSignal ∈ ["INT", "TERM", ""]) :
    ((∃ e ∈ (p.restart cfg o h).trace, e.isStart = true) ↔
      (o.build = true ∧ p.Name = "main")) ∧
    (∀ pid, p.livePid = some pid →
      ((∃ sg ok, Effect.signal pid sg ok ∈ (p.restart cfg o h).trace) ↔
        (o.build = true ∧ p.Name = "main"))) ∧
    (∀ e ∈ (p.restart cfg o h).trace, e.isSignal = true →
      ∃ pid sig ok, p.livePid = some pid ∧ e = Effect.signal pid sig ok) ∧
    (¬ (o.build = true ∧ p.Name = "main") →
      (p.restart cfg o h).prj.cmd = p.cmd ∧
      ∀ e ∈ (p.restart cfg o h).trace, e.isSignal = false ∧ e.isStart = false) ∧
    (∀ os : List Outcome, (p.Name ≠ "main" ∨ ∀ o' ∈ os, o'.build = false) →
      (restarts cfg os h p).panic = none ∧
      (restarts cfg os h p).prj.cmd = p.cmd ∧
      ∀ e ∈ (restarts cfg os h p).trace, e.isSignal = false ∧ e.isStart = false) := by
  obtain ⟨sig, hsig⟩ := getTermSignal_accepted _ hsig
  have hun := restart_untouched cfg o h p
  refine ⟨?_, ?_, ?_, fun hno => ⟨(hun hno).2.1, (hun hno).2.2.2.2⟩,
    fun os hos => restarts_untouched cfg os h p hos⟩
  · constructor
    · rintro ⟨e, he, hst⟩
      by_contra hno
      have := ((hun hno).2.2.2.2 e he).2
      simp [hst] at this
    · rintro ⟨hb, hn⟩
      rw [restart_executable cfg o h p hb hn sig hsig]
      rcases o.start with _ | pid
      · exact ⟨.start (Command p.Target (cfg.Args.drop 1) (p.childStdin h).2) none,
          by simp, rfl⟩
      · exact ⟨.start (Command p.Target (cfg.Args.drop 1) (p.childStdin h).2) (some pid),
          by simp, rfl⟩
  · intro pid hlp
    constructor
    · rintro ⟨sg, ok, he⟩
      by_contra hno
      have := ((hun hno).2.2.2.2 _ he).1
      simp [Effect.isSignal] at this
    · rintro ⟨hb, hn⟩
      rw [restart_executable cfg o h p hb hn sig hsig]
      have ht := (terminate_accepted cfg.termSignal sig hsig o.signal p).2
      rw [hlp] at ht
      refine ⟨sig, o.signal, ?_⟩
      simp only [List.mem_append]
      refine Or.inl (Or.inr ?_)
      rw [ht]
      cases o.signal <;> simp
  · exact restart_signal_mem cfg o h p sig hsig

/-- A witness of `restart_touches_process_iff`: a cycle of the executable
project whose build fails starts nothing. -/
theorem restart_touches_process_iff_witness :
    ¬ ∃ e ∈ (demoProject.restart demoConfig ⟨false, true, some 7⟩ []).trace,
      e.isStart = true :=
  fun hex =>
    absurd ((restart_touches_process_iff demoConfig ⟨false, true, some 7⟩ [] demoProject
      (by decide)).1.mp hex).1 (by decide)

/-- Claim C9: for a project named `main` whose build succeeds, with the signal
`sig` that `getTermSignal` returns, the effects of `restart` on processes are,
in this order: the one build `go install`; one `Signal(sig)` to the live child
when there is one and none otherwise; one `Start` of the command
`exec.Command(p.Target, os.Args[1:]...)`.  The start is there whether the
signal was delivered or not. -/
theorem restart_effect_order (cfg : Config) (o : Outcome) (h : Heap) (p : project)
    (sig : Signal) (hsig : getTermSignal cfg.termSignal = .ok sig)
    (hn : p.Name = "main") (hb : o.build = true) :
    (p.restart cfg o h).trace.filter Effect.isProcess =
      [Effect.run "go" ["install"] true] ++
      (match p.livePid with
        | none => []
        | some pid => [Effect.signal pid sig o.signal]) ++
      [Effect.start (Command p.Target (cfg.Args.drop 1) (p.childStdin h).2) o.start] ∧
    (Command p.Target (cfg.Args.drop 1) (p.childStdin h).2).Path = p.Target ∧
    (Command p.Target (cfg.Args.drop 1) (p.childStdin h).2).Args =
      p.Target :: cfg.Args.drop 1 ∧
    (p.restart cfg o h).panic = none := by
  rw [restart_executable cfg o h p hb hn sig hsig]
  have ht := (terminate_accepted cfg.termSignal sig hsig o.signal p).2
  refine ⟨?_, rfl, rfl, rfl⟩
  simp only [ht]
  rcases p.livePid with _ | pid
  · rcases o.start with _ | pid' <;>
      simp [Effect.isProcess, Effect.isBuild, Effect.isSignal, Effect.isStart]
  · rcases o.start with _ | pid' <;> cases o.signal <;>
      simp [Effect.isProcess, Effect.isBuild, Effect.isSignal, Effect.isStart]

/-- A witness of `restart_effect_order`: the second cycle of the executable
project, whose child 7 is running; the signal is not delivered and the start
happens all the same. -/
theorem restart_effect_order_witness :
    ({ demoProject with
        cmd := some { Command "/go/bin/app" ["-v"] Reader.osStdin with
                      Process := some 7 } }.restart
      demoConfig ⟨true, false, some 8⟩ []).trace.filter Effect.isProcess =
      [Effect.run "go" ["install"] true, Effect.signal 7 Signal.SIGTERM false,
       Effect.start (Command "/go/bin/app" ["-v"] Reader.osStdin) (some 8)] :=
  (restart_effect_order demoConfig ⟨true, false, some 8⟩ []
    { demoProject with
      cmd := some { Command "/go/bin/app" ["-v"] Reader.osStdin with Process := some 7 } }
    Signal.SIGTERM (by decide) (by decide) (by decide)).1

/-- Claim C10: when a cycle of an executable reaches the start and `Start`
fails, `restart` returns without a panic and with `restarting == false`, and
the project holds no live child handle: a `terminate` after it, in the next
cycle or in the signal handler, sends no signal, whatever the configuration
and whatever child ran before. -/
theorem restart_spawn_failure (cfg : Config) (o : Outcome) (h : Heap) (p : project)
    (hsig : cfg.termSignal ∈ ["INT", "TERM", ""])
    (hn : p.Name = "main") (hb : o.build = true) (hs : o.start = none) :
    (p.restart cfg o h).panic = none ∧
    (p.restart cfg o h).prj.restarting = false ∧
    (p.restart cfg o h).prj.livePid = none ∧
    (∃ e ∈ (p.restart cfg o h).trace, e.isStart = true) ∧
    (∀ ts d, (p.restart cfg o h).prj.terminate ts d = ([], none)) ∧
    (∀ ts d, signalHandler ts d (p.restart cfg o h).prj = ([Effect.exit 0], none)) ∧
    (∀ o' : Outcome,
      ∀ e ∈ ((p.restart cfg o h).prj.restart cfg o' (p.restart cfg o h).heap).trace,
        e.isSignal = false) := by
  obtain ⟨sig, hsig'⟩ := getTermSignal_accepted _ hsig
  have hr := restart_executable cfg o h p hb hn sig hsig'
  have hlive : (p.restart cfg o h).prj.livePid = none := by
    rw [hr]
    simp [project.livePid, hs, Command]
  have hterm : ∀ ts d, (p.restart cfg o h).prj.terminate ts d = ([], none) :=
    fun ts d => terminate_no_handle ts d _ hlive
  refine ⟨by rw [hr], by rw [hr], hlive, ?_, hterm, ?_, ?_⟩
  · rw [hr, hs]
    exact ⟨.start (Command p.Target (cfg.Args.drop 1) (p.childStdin h).2) none,
      by simp, rfl⟩
  · intro ts d
    simp [signalHandler, hterm]
  · intro o' e he
    cases hsg : e.isSignal
    · rfl
    · obtain ⟨pid, _, _, hl, _⟩ :=
        restart_signal_mem cfg o' (p.restart cfg o h).heap
          (p.restart cfg o h).prj sig hsig' e he hsg
      rw [hlive] at hl
      cases hl

/-- A witness of `restart_spawn_failure`: child 7 is running, the build
succeeds and the new start fails; the handle left has no process. -/
theorem restart_spawn_failure_witness :
    ({ demoProject with
        cmd := some { Command "/go/bin/app" ["-v"] Reader.osStdin with
                      Process := some 7 } }.restart
      demoConfig ⟨true, true, none⟩ []).prj.livePid = none :=
  (restart_spawn_failure demoConfig ⟨true, true, none⟩ []
    { demoProject with
      cmd := some { Command "/go/bin/app" ["-v"] Reader.osStdin with Process := some 7 } }
    (by decide) (by decide) (by decide) (by decide)).2.2.1

/-! ## Standard input replay -/

/-- The bytes `copy` leaves in a zeroed array of the length of the source are
the bytes of the source. -/
theorem copyBytes_make (B : List Byte) :
    copyBytes (List.replicate B.length 0) B = B := by
  simp [copyBytes]

/-- A slice that holds bytes lies on the heap. -/
theorem bytes_ne_nil_lt (h : Heap) (s : Slice) (hne : h.bytes s ≠ []) :
    ∃ a, s = some a ∧ a < h.length := by
  rcases s with _ | a
  · simp [Heap.bytes] at hne
  · refine ⟨a, rfl, ?_⟩
    by_contra hlt
    apply hne
    simp only [Heap.bytes]
    exact List.getD_eq_default _ _ (Nat.le_of_not_lt hlt)

/-- Lines 142-147 with a captured buffer that is not empty: the reader is at
offset 0 over a new array, which holds the captured bytes; the heap before is
untouched. -/
theorem childStdin_captured (h : Heap) (p : project) (B : List Byte) (hB : B ≠ [])
    (hcap : h.bytes p.stdin = B) :
    p.childStdin h = (h ++ [B], Reader.bytesReader (some h.length) 0) := by
  obtain ⟨a, ha, hlt⟩ := bytes_ne_nil_lt h p.stdin (by rw [hcap]; exact hB)
  have hlen : h.len p.stdin = B.length := by simp [Heap.len, hcap]
  have hpos : 0 < B.length := List.length_pos.mpr hB
  have hsrc : (h ++ [List.replicate B.length 0]).bytes p.stdin = B := by
    rw [← hcap, ha]
    simp only [Heap.bytes]
    exact List.getD_append _ _ _ _ hlt
  have hdst : (h ++ [List.replicate B.length 0]).bytes (some h.length) =
      List.replicate B.length 0 := by
    simp only [Heap.bytes]
    rw [List.getD_append_right _ _ _ _ (le_refl _)]
    simp
  unfold project.childStdin
  simp only [hlen, gt_iff_lt, hpos, if_true, Heap.make, Heap.copy, NewReader, hsrc, hdst,
    copyBytes_make]
  simp [List.set_append]

/-- The standard inputs of the children of two traces in a row. -/
theorem childStdins_append (t u : List Effect) :
    childStdins (t ++ u) = childStdins t ++ childStdins u := by
  induction t with
  | nil => rfl
  | cons e t ih => cases e <;> simp [childStdins, ih]

/-- The method `terminate` starts no child. -/
theorem childStdins_terminate (ts : String) (d : Bool) (p : project) :
    childStdins (p.terminate ts d).1 = [] := by
  unfold project.terminate
  rcases p.cmd with _ | cmd
  · simp [childStdins]
  · rcases hp : cmd.Process with _ | pid
    · simp [hp, childStdins]
    · rcases hg : getTermSignal ts with msg | sig
      · simp [hp, hg, childStdins]
      · cases d <;> simp [hp, hg, childStdins]

/-- Successful cycles of an executable over a captured buffer `B` that is not
empty: cycle `k` gives its child a reader at offset 0 over the new array at
address `len(heap) + k`, the heap grows by one copy of `B` per cycle, and the
project keeps its `stdin` slice. -/
theorem restarts_replay (cfg : Config) (sig : Signal)
    (hsig : getTermSignal cfg.termSignal = .ok sig) (B : List Byte) (hB : B ≠ [])
    (os : List Outcome) (h : Heap) (p : project)
    (hcap : h.bytes p.stdin = B) (hn : p.Name = "main")
    (hok : ∀ o ∈ os, o.build = true ∧ o.start.isSome = true) :
    (restarts cfg os h p).panic = none ∧
    (restarts cfg os h p).heap = h ++ List.replicate os.length B ∧
    (restarts cfg os h p).prj.stdin = p.stdin ∧
    childStdins (restarts cfg os h p).trace =
      (List.range os.length).map fun k => Reader.bytesReader (some (h.length + k)) 0 := by
  induction os generalizing h p with
  | nil => simp [restarts, childStdins]
  | cons o os ih =>
    obtain ⟨hb, hst⟩ := hok o (List.mem_cons_self _ _)
    obtain ⟨pid, hpid⟩ := Option.isSome_iff_exists.mp hst
    have hr := restart_executable cfg o h p hb hn sig hsig
    have hcs := childStdin_captured h p B hB hcap
    obtain ⟨a, ha, hlt⟩ := bytes_ne_nil_lt h p.stdin (by rw [hcap]; exact hB)
    have hcap' : (p.restart cfg o h).heap.bytes (p.restart cfg o h).prj.stdin = B := by
      rw [hr, hcs]
      simp only [ha, Heap.bytes]
      rw [List.getD_append _ _ _ _ hlt]
      rw [← hcap, ha]
      rfl
    have hn' : (p.restart cfg o h).prj.Name = "main" := by rw [hr]; exact hn
    obtain ⟨i1, i2, i3, i4⟩ := ih (p.restart cfg o h).heap (p.restart cfg o h).prj hcap' hn'
      (fun o' ho' => hok o' (List.mem_cons_of_mem _ ho'))
    have hpanic : (p.restart cfg o h).panic = none := by rw [hr]
    have hheap : (p.restart cfg o h).heap = h ++ [B] := by rw [hr, hcs]
    have hstdin : (p.restart cfg o h).prj.stdin = p.stdin := by rw [hr]
    have htrace : childStdins (p.restart cfg o h).trace =
        [Reader.bytesReader (some h.length) 0] := by
      rw [hr, hpid, hcs]
      simp [childStdins_append, childStdins_terminate, childStdins, Command]
    simp only [restarts, hpanic]
    refine ⟨i1, ?_, by rw [i3, hstdin], ?_⟩
    · rw [i2, hheap]
      simp [List.replicate_succ]
    · rw [childStdins_append, htrace, i4, hheap, List.length_cons, List.range_succ_eq_map]
      simp [Nat.add_assoc, Nat.add_comm 1]

/-- Lines 142-147 with a captured buffer that is empty, or with none: the child
gets `os.Stdin` itself and the heap is as it was. -/
theorem childStdin_empty (h : Heap) (p : project) (hcap : h.bytes p.stdin = []) :
    p.childStdin h = (h, Reader.osStdin) := by
  simp [project.childStdin, Heap.len, hcap]

/-- Successful cycles of an executable whose captured buffer is empty: every
child gets `os.Stdin` itself, nothing is allocated or copied, and the project
keeps its `stdin` slice. -/
theorem restarts_passthrough (cfg : Config) (sig : Signal)
    (hsig : getTermSignal cfg.termSignal = .ok sig)
    (os : List Outcome) (h : Heap) (p : project)
    (hcap : h.bytes p.stdin = []) (hn : p.Name = "main")
    (hok : ∀ o ∈ os, o.build = true ∧ o.start.isSome = true) :
    (restarts cfg os h p).panic = none ∧
    (restarts cfg os h p).heap = h ∧
    (restarts cfg os h p).prj.stdin = p.stdin ∧
    childStdins (restarts cfg os h p).trace = List.replicate os.length Reader.osStdin := by
  induction os generalizing p with
  | nil => simp [restarts, childStdins]
  | cons o os ih =>
    obtain ⟨hb, hst⟩ := hok o (List.mem_cons_self _ _)
    obtain ⟨pid, hpid⟩ := Option.isSome_iff_exists.mp hst
    have hr := restart_executable cfg o h p hb hn sig hsig
    have hcs := childStdin_empty h p hcap
    have hpanic : (p.restart cfg o h).panic = none := by rw [hr]
    have hheap : (p.restart cfg o h).heap = h := by rw [hr, hcs]
    have hstdin : (p.restart cfg o h).prj.stdin = p.stdin := by rw [hr]
    have hn' : (p.restart cfg o h).prj.Name = "main" := by rw [hr]; exact hn
    have htrace : childStdins (p.restart cfg o h).trace = [Reader.osStdin] := by
      rw [hr, hpid, hcs]
      simp [childStdins_append, childStdins_terminate, childStdins, Command]
    obtain ⟨i1, i2, i3, i4⟩ := ih (p.restart cfg o h).prj
      (by rw [hstdin]; exact hcap) hn'
      (fun o' ho' => hok o' (List.mem_cons_of_mem _ ho'))
    simp only [restarts, hpanic, hheap]
    refine ⟨i1, i2, by rw [i3, hstdin], ?_⟩
    rw [childStdins_append, htrace, i4]
    simp [List.replicate_succ]

/-- Claim C8, as the code has it: after `read` captured the bytes `B` of a
redirected standard input, `k` successful cycles of the executable give `k`
children.  When `B` is not empty each child has a `bytes.Reader` at offset 0
over an array of its own (the readers are pairwise distinct and none is over
the array of `p.stdin`) that holds exactly `B`.  When `B` is empty each child
has `os.Stdin` itself and nothing is allocated or copied.  In both cases the
slice `p.stdin` is the same after the cycles and still holds `B`. -/
theorem stdin_replay (cfg : Config) (i : ReadInput) (h0 : Heap) (p0 : project)
    (B : List Byte) (os : List Outcome)
    (hread : read i [] = .ok (h0, p0)) (hredir : i.stat = .ok false)
    (hin : i.input = .ok B) (hn : p0.Name = "main")
    (hsig : cfg.termSignal ∈ ["INT", "TERM", ""])
    (hok : ∀ o ∈ os, o.build = true ∧ o.start.isSome = true) :
    h0.bytes p0.stdin = B ∧
    (restarts cfg os h0 p0).panic = none ∧
    (childStdins (restarts cfg os h0 p0).trace).length = os.length ∧
    (B ≠ [] →
      (∀ rd ∈ childStdins (restarts cfg os h0 p0).trace,
        (∃ a, rd = Reader.bytesReader (some a) 0 ∧ some a ≠ p0.stdin ∧ h0.length ≤ a) ∧
        rd.unread (restarts cfg os h0 p0).heap = some B) ∧
      (childStdins (restarts cfg os h0 p0).trace).Nodup) ∧
    (B = [] →
      (∀ rd ∈ childStdins (restarts cfg os h0 p0).trace, rd = Reader.osStdin) ∧
      (restarts cfg os h0 p0).heap = h0) ∧
    (restarts cfg os h0 p0).prj.stdin = p0.stdin ∧
    (restarts cfg os h0 p0).heap.bytes (restarts cfg os h0 p0).prj.stdin = B := by
  obtain ⟨sig, hsig⟩ := getTermSignal_accepted _ hsig
  have hcap : h0.bytes p0.stdin = B := by
    unfold read at hread
    rcases hl : i.list with err | l
    · simp [hl] at hread
    · simp [hl, hredir, hin] at hread
      obtain ⟨rfl, rfl⟩ := hread
      simp [Heap.bytes]
  by_cases hB : B = []
  · subst hB
    obtain ⟨r1, r2, r3, r4⟩ := restarts_passthrough cfg sig hsig os h0 p0 hcap hn hok
    refine ⟨hcap, r1, by rw [r4]; simp, fun hne => absurd rfl hne, fun _ => ⟨?_, r2⟩, r3, ?_⟩
    · intro rd hrd
      rw [r4] at hrd
      exact (List.mem_replicate.mp hrd).2
    · rw [r3, r2]
      exact hcap
  · obtain ⟨a, ha, hlt⟩ := bytes_ne_nil_lt h0 p0.stdin (by rw [hcap]; exact hB)
    obtain ⟨r1, r2, r3, r4⟩ := restarts_replay cfg sig hsig B hB os h0 p0 hcap hn hok
    refine ⟨hcap, r1, by rw [r4]; simp, fun _ => ⟨?_, ?_⟩, fun he => absurd he hB, r3, ?_⟩
    · intro rd hrd
      rw [r4] at hrd
      simp only [List.mem_map, List.mem_range] at hrd
      obtain ⟨k, hk, rfl⟩ := hrd
      refine ⟨⟨h0.length + k, rfl, ?_, Nat.le_add_right _ _⟩, ?_⟩
      · rw [ha]
        intro heq
        injection heq with heq
        omega
      · simp only [Reader.unread, Heap.bytes, r2, List.drop_zero]
        rw [List.getD_append_right _ _ _ _ (Nat.le_add_right _ _)]
        simp [List.getD_eq_getElem?_getD, hk]
    · rw [r4]
      refine (List.nodup_range _).map ?_
      intro x y hxy
      simp only [Reader.bytesReader.injEq, Option.some.injEq, and_true] at hxy
      omega
    · rw [r3, r2, ha]
      simp only [Heap.bytes]
      rw [List.getD_append _ _ _ _ hlt, ← hcap, ha]
      rfl

/-- A witness of `stdin_replay`: the input `hi` is captured and two cycles
succeed, with two readers; and an empty input is captured and a cycle
succeeds, with `os.Stdin`. -/
theorem stdin_replay_witness :
    (childStdins (restarts demoConfig [⟨true, true, some 7⟩, ⟨true, true, some 8⟩]
      [[104, 105]] { demoProject with stdin := some 0 }).trace).length = 2 ∧
    ∀ rd ∈ childStdins (restarts demoConfig [⟨true, true, some 7⟩]
      [[]] { demoProject with stdin := some 0 }).trace, rd = Reader.osStdin :=
  ⟨(stdin_replay demoConfig (pipedInput [104, 105]) [[104, 105]]
      { demoProject with stdin := some 0 } [104, 105]
      [⟨true, true, some 7⟩, ⟨true, true, some 8⟩]
      (by decide) (by decide) (by decide) (by decide) (by decide)
      (by decide)).2.2.1,
    ((stdin_replay demoConfig (pipedInput []) [[]]
      { demoProject with stdin := some 0 } [] [⟨true, true, some 7⟩]
      (by decide) (by decide) (by decide) (by decide) (by decide)
      (by decide)).2.2.2.2.1 rfl).1⟩

/-- Claim C8 as written fails for an empty captured input: a redirected
standard input with no bytes is captured as an empty slice, and the child of a
successful cycle gets `os.Stdin` itself, not a reader over a copy. -/
theorem stdin_replay_empty_counterexample :
    read (pipedInput []) [] = .ok ([[]], { demoProject with stdin := some 0 }) ∧
    childStdins (({ demoProject with stdin := some 0 } : project).restart demoConfig
      ⟨true, true, some 7⟩ [[]]).trace = [Reader.osStdin] ∧
    (({ demoProject with stdin := some 0 } : project).restart demoConfig
      ⟨true, true, some 7⟩ [[]]).heap = [[]] := by
  decide

/-! ## Single flight -/

/-- The small steps of `main` from its call are the function `main`: the one
step there is ends the program with the panic and the effects of `main`. -/
theorem run_main_eq_main (w : Startup) (args : List String) :
    Sys.run w args Sys.init [.main] =
      some { Sys.init with trace := (main w).1, ended := some (.panic (Getenv w.env)) } ∧
    (main w).2 = Exit.panic (Getenv w.env) ∧
    Sys.run w args Sys.init [.main, .main] = none := by
  simp [Sys.run, Sys.step, Sys.init, Sys.mainStep, main, andThen, goPanic]

/-- The program taken from line 43 on does not keep single flight: when an
event for the registered project directory is handled before the main
goroutine reaches line 93, the cycle started by the dispatch loop and the
cycle started by line 94 are both inside `restart`. -/
theorem single_flight_race_from_line43 :
    (Sys.run demoStartup ["goup"] { Sys.init with main := .l43 } raceSchedule).map
      Sys.inFlight = some 2 ∧
    (Sys.run demoStartup ["goup"] { Sys.init with main := .l43 } raceSchedule).map
      Sys.tasks = some [Pc.l126, Pc.l126] ∧
    (Sys.run demoStartup ["goup"] { Sys.init with main := .l43 }
      (List.replicate 11 Action.main)).map (fun s => (s.trace, s.main, s.ended)) =
      some ((mainFrom43 demoStartup).1, MainPc.l95, none) := by
  decide

/-- The program taken from line 43 on reads `p.cmd` anew at line 160: when a
second cycle has assigned its command to `p.cmd` in between, the first cycle
finds a nil `Process` there and the program ends in a nil pointer
dereference. -/
theorem stale_handle_from_line43 :
    (Sys.run demoStartup ["goup"] { Sys.init with main := .l43 }
      staleHandleSchedule).map Sys.ended = some (some (Ending.panic nilDereference)) ∧
    (Sys.run demoStartup ["goup"] { Sys.init with main := .l43 }
      staleHandleSchedule).map Sys.tasks = some [Pc.panicked, Pc.l150 Reader.osStdin] := by
  decide

/-! ## The statements of a cycle and of the dispatch loop, run in a row -/

/-- The statements of `restart` run in a row by one goroutine, no other
goroutine stepping in between, are the method `restart` run to its end: the
same effects in the same order, the same heap and project, the same panic. -/
theorem restart_eq_runSteps (cfg : Config) (o : Outcome) (h : Heap) (p : project) :
    (runSteps cfg o 21 Pc.spawned { trace := [], heap := h, prj := p, panic := none }).2 =
      p.restart cfg o h := by
  cases hb : o.build
  · simp [runSteps, project.restartStep, project.restart, hb]
  · by_cases hn : p.Name = "main"
    swap
    · simp [runSteps, project.restartStep, project.restart, hb, hn]
    · rcases hc : p.cmd with _ | cmd
      · by_cases hl : h.len p.stdin > 0 <;> rcases hs : o.start with _ | pid <;>
          simp [runSteps, project.restartStep, project.terminateStep, project.restart,
            project.terminate, project.childStdin, hb, hn, hc, hl, hs, Command, NewReader,
            Heap.make]
      · rcases hp : cmd.Process with _ | pid0
        · by_cases hl : h.len p.stdin > 0 <;> rcases hs : o.start with _ | pid <;>
            simp [runSteps, project.restartStep, project.terminateStep, project.restart,
              project.terminate, project.childStdin, hb, hn, hc, hp, hl, hs, Command,
              NewReader, Heap.make]
        · rcases hg : getTermSignal cfg.termSignal with msg | sig
          · simp [runSteps, project.restartStep, project.terminateStep, project.restart,
              project.terminate, hb, hn, hc, hp, hg]
          · cases hd : o.signal <;> by_cases hl : h.len p.stdin > 0 <;>
              rcases hs : o.start with _ | pid <;>
              simp [runSteps, project.restartStep, project.terminateStep, project.restart,
                project.terminate, project.childStdin, hb, hn, hc, hp, hg, hd, hl, hs,
                Command, NewReader, Heap.make]

/-- The statements of the dispatch loop for one received message, run in a
row, are the turn `dispatch`: the same project and the same effects, and one
new goroutine for the `go prj.restart()` of the turn. -/
theorem dispatch_eq_steps (s : Sys) (p : project) (m : Msg)
    (hd : s.dispatcher = .l69) (hp : s.prj = some p) :
    ∃ n ≤ 3, ((s.receiveStep m).bind fun s1 =>
        (Nat.iterate (fun x : Option Sys => x.bind Sys.dispatchStep) n (some s1))) =
      some { s with prj := some (dispatch p m).1
                    trace := s.trace ++ (dispatch p m).2
                    tasks := s.tasks ++
                      List.replicate (cyclesStarted (dispatch p m).2) Pc.spawned } := by
  cases m with
  | error err =>
    refine ⟨0, by omega, ?_⟩
    simp [Sys.receiveStep, hd, hp, dispatch, cyclesStarted]
  | event e =>
    by_cases hc : (p.restarting || !e.valid) = true
    · refine ⟨0, by omega, ?_⟩
      simp only [Sys.receiveStep, hd, hp, dispatch, hc, if_true, cyclesStarted]
      cases s
      simp_all
    · refine ⟨3, le_refl _, ?_⟩
      simp [Sys.receiveStep, Sys.dispatchStep, hd, hp, dispatch, hc, cyclesStarted]


/-- The program that has ended stays as it is. -/
theorem runMain_ended (w : Startup) (n : Nat) (s : Sys) (e : Ending)
    (he : s.ended = some e) : Sys.runMain w n s = s := by
  cases n <;> simp [Sys.runMain, he]

/-- The main goroutine in the receive of line 95 stays there. -/
theorem runMain_blocked (w : Startup) (n : Nat) (s : Sys)
    (hm : s.main = .l95) : Sys.runMain w n s = s := by
  cases n with
  | zero => rfl
  | succ n =>
    rcases he : s.ended with _ | e
    · simp [Sys.runMain, he, Sys.mainStep, hm]
    · exact runMain_ended w _ s e he

/-- The statements of lines 83-95 run in a row are the loop `registerAll` and
what `mainFrom43` does after it. -/
theorem runMain_register (w : Startup) (prj : project) (dirs : List String) :
    ∀ (n : Nat) (s : Sys), s.main = .l83 dirs → s.ended = none → s.prj = some prj →
      dirs.length + 4 ≤ n →
      (Sys.runMain w n s).trace = s.trace ++
        (match registerAll w.add dirs with
          | (tr, some _) => tr
          | (tr, none) =>
            if w.add prj.Dir = false then tr ++ [.watcherAdd prj.Dir false]
            else tr ++ [.watcherAdd prj.Dir true, .setRestarting true, .goRestart]) ∧
      (Sys.runMain w n s).mainExit = some
        (match registerAll w.add dirs with
          | (_, some dir) => Exit.fatal ("failed to register: " ++ dir)
          | (_, none) =>
            if w.add prj.Dir = false then Exit.fatal ("failed to register: " ++ prj.Dir)
            else Exit.blocked) := by
  induction dirs with
  | nil =>
    intro n s hm he hp hn
    obtain ⟨k, rfl⟩ : ∃ k, n = k + 4 := ⟨n - 4, by simp at hn; omega⟩
    cases hadd : w.add prj.Dir
    · simp [Sys.runMain, Sys.mainStep, hm, he, hp, hadd, registerAll, runMain_ended,
        Sys.mainExit]
    · simp [Sys.runMain, Sys.mainStep, hm, he, hp, hadd, registerAll, runMain_blocked,
        Sys.mainExit]
  | cons d ds ih =>
    intro n s hm he hp hn
    obtain ⟨k, rfl⟩ : ∃ k, n = k + 1 := ⟨n - 1, by simp at hn; omega⟩
    cases hadd : w.add d
    · simp [Sys.runMain, Sys.mainStep, hm, he, hadd, registerAll, runMain_ended,
        Sys.mainExit]
    · have hk : ds.length + 4 ≤ k := by simp at hn; omega
      have := ih k { s with main := .l83 ds, added := s.added ++ [d]
                            trace := s.trace ++ [.watcherAdd d true] } rfl he hp hk
      simp only [Sys.runMain, Sys.mainStep, hm, he, hadd, if_true]
      rcases hreg : registerAll w.add ds with ⟨tr, _ | dir⟩
      · rw [hreg] at this
        simp only [registerAll, hadd, if_true, hreg]
        cases hadd2 : w.add prj.Dir <;> simpa [he, hadd2] using this
      · rw [hreg] at this
        simp only [registerAll, hadd, if_true, hreg]
        simpa [he] using this

/-- The statements of lines 43-95 run in a row by the main goroutine are
`mainFrom43`: the same effects in the same order and the same end. -/
theorem runMain_eq_mainFrom43 (w : Startup) (n : Nat)
    (hn : ∀ l, w.input.list = .ok l → (watchedDirs w.input.imp l.Deps).length + 11 ≤ n)
    (hn0 : 1 ≤ n) :
    (Sys.runMain w n { Sys.init with main := .l43 }).trace = (mainFrom43 w).1 ∧
    (Sys.runMain w n { Sys.init with main := .l43 }).mainExit = some (mainFrom43 w).2 := by
  obtain ⟨k, rfl⟩ : ∃ k, n = k + 1 := ⟨n - 1, by omega⟩
  rcases hread : read w.input [] with err | ⟨h, prj⟩
  · simp [Sys.runMain, Sys.mainStep, Sys.init, hread, mainFrom43, runMain_ended,
      Sys.mainExit]
  · have hw : (prj.watched).length + 10 ≤ k := by
      unfold read at hread
      rcases hl : w.input.list with err | l
      · simp [hl] at hread
      · have := hn l hl
        rcases hs : w.input.stat with err | cd
        · simp [hl, hs] at hread
        · cases cd
          · rcases hi : w.input.input with err | data
            · simp [hl, hs, hi] at hread
            · simp [hl, hs, hi] at hread
              obtain ⟨-, rfl⟩ := hread
              simp only
              omega
          · simp [hl, hs] at hread
            obtain ⟨-, rfl⟩ := hread
            simp only
            omega
    obtain ⟨k, rfl⟩ : ∃ j, k = j + 6 := ⟨k - 6, by omega⟩
    rcases hg : getTermSignal (Getenv w.env) with msg | sig
    · simp [Sys.runMain, Sys.mainStep, Sys.init, hread, hg, mainFrom43, runMain_ended,
        Sys.mainExit]
    · cases hnw : w.newWatcher
      · simp [Sys.runMain, Sys.mainStep, Sys.init, hread, hg, hnw, mainFrom43,
          runMain_ended, Sys.mainExit]
      · have hreg := runMain_register w prj prj.watched k
          { heap := h, prj := some prj, main := .l83 prj.watched, dispatcher := .l69
            handler := .l55, added := [], tasks := []
            trace := [.read, .log (.usingTerminationSignal (Getenv w.env)), .signalNotify,
              .newWatcher true, .goDispatch]
            ended := none } rfl rfl rfl (by omega)
        simp only [Sys.runMain, Sys.mainStep, Sys.init, hread, hg, hnw, mainFrom43,
          List.nil_append, List.cons_append, Bool.true_eq_false, if_false]
        rcases hr : registerAll w.add prj.watched with ⟨tr, _ | dir⟩
        · rw [hr] at hreg
          cases hadd : w.add prj.Dir <;> simp [hadd] at hreg ⊢ <;> exact hreg
        · rw [hr] at hreg
          simpa using hreg

/-- A witness of `runMain_eq_mainFrom43`: the startup with
`GOUP_TERM_SIGNAL=TERM`, run for eleven statements. -/
theorem runMain_eq_mainFrom43_witness :
    (Sys.runMain demoStartup 11 { Sys.init with main := .l43 }).mainExit =
      some (mainFrom43 demoStartup).2 :=
  (runMain_eq_mainFrom43 demoStartup 11
    (fun l hl => by
      have : l = { Name := "main", Deps := [], Target := "/go/bin/app",
                   Dir := "/src/app" } := by
        have h2 : (Except.ok l : Except String Listing) = Except.ok _ := hl.symm.trans rfl
        injection h2
      subst this
      decide)
    (by decide)).2

end Goup
